import Mathlib

/-!
Verification development for the portal-frame structural app.

The repository's own source (`app.py`, `test.py`) is thin glue over an
external 2D frame finite-element engine; the design spec describes that
engine (node/element model, boundary conditions, stiffness assembly,
constrained solve).  The engine itself is not part of the repository's
source tree, so it is modelled here from the spec; the two source files
(`Controller.calculate_moment_of_inertia`, `Controller.make_analysis`)
are embedded from the source directly.

All arithmetic is exact rational arithmetic.  Element lengths are square
roots of rational numbers and hence irrational in general, so every
definition that needs a length takes it as an explicit function from
element ids, constrained where a theorem needs it by the hypothesis
`len² = Δx² + Δy²`.
-/

namespace StructApp

/-- Modelled from the spec: a 2D coordinate (spec §3, Node position). -/
structure Point where
  x : ℚ
  y : ℚ
deriving DecidableEq, Repr

/-- Modelled from the spec: a node — unique 1-based id and a position
(spec §3); incident elements are recoverable from the element list. -/
structure Node where
  id : ℕ
  pos : Point
deriving DecidableEq, Repr

/-- Modelled from the spec: an element — sequential id, start/end node ids,
axial stiffness EA and bending stiffness EI (spec §3). -/
structure Element where
  id : ℕ
  startNode : ℕ
  endNode : ℕ
  EA : ℚ
  EI : ℚ
deriving DecidableEq, Repr

/-- Modelled from the spec: support kinds (spec §3): fixed restrains all
three DOFs, roll restrains the transverse (vertical) translation, hinge
(pin) restrains both translations and releases the rotation. -/
inductive SupportKind
  | fixed
  | roll
  | hinge
deriving DecidableEq, Repr

/-- Modelled from the spec: association of a node id with a constraint
kind (spec §3). -/
structure Support where
  node : ℕ
  kind : SupportKind
deriving DecidableEq, Repr

/-- Modelled from the spec: direction flag of a distributed load
(spec §3: {global, element-local}). -/
inductive LoadDirection
  | globalDir
  | elementDir
deriving DecidableEq, Repr

/-- Modelled from the spec: a load — either a point load at a node
(force components and moment) or a uniform distributed load on an
element (spec §3). -/
inductive Load
  | point (node : ℕ) (fx fy m : ℚ)
  | distributed (elem : ℕ) (q : ℚ) (dir : LoadDirection)
deriving DecidableEq, Repr

/-- Modelled from the spec: the aggregate system state (spec §3,
SystemState).  `EA`/`EI` are the system defaults copied into every added
element; `tol` is the node-matching tolerance used by implicit node
deduplication (spec §4.1, §9). -/
structure SystemState where
  EA : ℚ
  EI : ℚ
  tol : ℚ
  nodes : List Node
  elements : List Element
  supports : List Support
  loads : List Load
  hinges : List ℕ
deriving DecidableEq, Repr

/-- Modelled from the spec: error taxonomy of the build API and solver
(spec §7). -/
inductive BuildError
  | degenerateGeometry
  | unknownReference
  | duplicateSupport
deriving DecidableEq, Repr

/-- Modelled from the spec: the solve-time failure (spec §4.4, §7). -/
inductive SolveError
  | singularSystem
deriving DecidableEq, Repr

/-- Modelled from the spec: two points match when both coordinates agree
within the tolerance (spec §4.1). -/
def Point.near (tol : ℚ) (p q : Point) : Bool :=
  decide (|p.x - q.x| ≤ tol) && decide (|p.y - q.y| ≤ tol)

/-- A fresh system with the given default element stiffnesses and exact
node matching. -/
def SystemState.init (ea ei : ℚ) : SystemState :=
  ⟨ea, ei, 0, [], [], [], [], []⟩

/-- First node whose position matches the given point within the system
tolerance (spec §4.1: reuse an existing node on a coordinate match). -/
def SystemState.findNode (s : SystemState) (p : Point) : Option Node :=
  s.nodes.find? (fun n => Point.near s.tol n.pos p)

/-- Modelled from the spec: resolve an element endpoint to a node id —
reuse a matching node, otherwise create a new node (sequential 1-based
id) at element-add time (spec §3, §4.1). -/
def SystemState.resolveNode (s : SystemState) (p : Point) : ℕ × SystemState :=
  match s.findNode p with
  | some n => (n.id, s)
  | none =>
      (s.nodes.length + 1,
        { s with nodes := s.nodes ++ [⟨s.nodes.length + 1, p⟩] })

/-- Modelled from the spec: `addElement(startPoint, endPoint)` — resolves
both endpoints (creating nodes as needed), rejects degenerate (zero
length) elements, and appends an element with the next sequential id
carrying the system default EA/EI (spec §4.1, §7). -/
def SystemState.addElement (s : SystemState) (p q : Point) :
    Except BuildError SystemState :=
  let r1 := s.resolveNode p
  let r2 := r1.2.resolveNode q
  if r1.1 = r2.1 then .error .degenerateGeometry
  else
    .ok { r2.2 with
          elements :=
            r2.2.elements ++ [⟨r2.2.elements.length + 1, r1.1, r2.1, s.EA, s.EI⟩] }

/-- Whether a node with the given id exists. -/
def SystemState.hasNode (s : SystemState) (a : ℕ) : Bool :=
  s.nodes.any (fun n => n.id == a)

/-- Whether an element with the given id exists. -/
def SystemState.hasElement (s : SystemState) (e : ℕ) : Bool :=
  s.elements.any (fun el => el.id == e)

/-- Whether the node already carries a support. -/
def SystemState.hasSupport (s : SystemState) (a : ℕ) : Bool :=
  s.supports.any (fun sp => sp.node == a)

/-- Modelled from the spec: add a support of the given kind — fails with
`UnknownReferenceError` on a dangling node id and `DuplicateSupportError`
when the node already carries a support (spec §4.2, §7). -/
def SystemState.addSupport (s : SystemState) (a : ℕ) (k : SupportKind) :
    Except BuildError SystemState :=
  if ¬ s.hasNode a then .error .unknownReference
  else if s.hasSupport a then .error .duplicateSupport
  else .ok { s with supports := s.supports ++ [⟨a, k⟩] }

/-- Modelled from the spec: `addSupportFixed(nodeId)` (spec §4.2). -/
def SystemState.addSupportFixed (s : SystemState) (a : ℕ) :
    Except BuildError SystemState :=
  s.addSupport a .fixed

/-- Modelled from the spec: `addSupportRoll(nodeId)` (spec §4.2); the
default roll direction restrains the vertical translation. -/
def SystemState.addSupportRoll (s : SystemState) (a : ℕ) :
    Except BuildError SystemState :=
  s.addSupport a .roll

/-- Modelled from the spec: `addInternalHinge(nodeId)` — validates the
node id and records the node as a moment-release point (spec §3, §4.2). -/
def SystemState.addInternalHinge (s : SystemState) (a : ℕ) :
    Except BuildError SystemState :=
  if ¬ s.hasNode a then .error .unknownReference
  else .ok { s with hinges := s.hinges ++ [a] }

/-- Modelled from the spec: `addPointLoad(nodeId, fx, fy, moment)` —
validates the node id and appends the load (spec §4.2). -/
def SystemState.addPointLoad (s : SystemState) (a : ℕ) (fx fy m : ℚ) :
    Except BuildError SystemState :=
  if ¬ s.hasNode a then .error .unknownReference
  else .ok { s with loads := s.loads ++ [.point a fx fy m] }

/-- Modelled from the spec: `addDistributedLoad(elementId, q, direction)`
— validates the element id and appends the load (spec §4.2). -/
def SystemState.addDistributedLoad (s : SystemState) (e : ℕ) (q : ℚ)
    (dir : LoadDirection) : Except BuildError SystemState :=
  if ¬ s.hasElement e then .error .unknownReference
  else .ok { s with loads := s.loads ++ [.distributed e q dir] }

/-- A build-API operation (spec §6). -/
inductive Op
  | addElement (p q : Point)
  | supportFixed (a : ℕ)
  | supportRoll (a : ℕ)
  | internalHinge (a : ℕ)
  | pointLoad (a : ℕ) (fx fy m : ℚ)
  | distLoad (e : ℕ) (q : ℚ) (dir : LoadDirection)
deriving DecidableEq, Repr

/-- Apply one build operation. -/
def SystemState.applyOp (s : SystemState) : Op → Except BuildError SystemState
  | .addElement p q => s.addElement p q
  | .supportFixed a => s.addSupportFixed a
  | .supportRoll a => s.addSupportRoll a
  | .internalHinge a => s.addInternalHinge a
  | .pointLoad a fx fy m => s.addPointLoad a fx fy m
  | .distLoad e q dir => s.addDistributedLoad e q dir

/-- Incremental build: apply a list of operations left to right
(spec §3, SystemState lifecycle). -/
def SystemState.runOps (s : SystemState) : List Op → Except BuildError SystemState
  | [] => .ok s
  | op :: ops => do (← s.applyOp op).runOps ops

/-- A pure sequence of `addElement` calls (spec §4.1). -/
def SystemState.buildElements (s : SystemState) :
    List (Point × Point) → Except BuildError SystemState
  | [] => .ok s
  | (p, q) :: rest => do (← s.addElement p q).buildElements rest

/-! ## Stiffness assembler (spec §4.3) -/

/-- Modelled from the spec: DOF indexing — the node with 1-based id `a`
occupies global DOF indices `3(a-1) + c` for `c ∈ {0,1,2}` (x, y,
rotation) (spec §4.3). -/
def dofOf (a c : ℕ) : ℕ := 3 * (a - 1) + c

/-- The six global DOF indices touched by an element (start node then
end node). -/
def elemDof (e : Element) (p : Fin 6) : ℕ :=
  if (p : ℕ) < 3 then dofOf e.startNode (p : ℕ) else dofOf e.endNode ((p : ℕ) - 3)

/-- Total number of global DOFs: three per node (spec §4.3). -/
def SystemState.numDofs (s : SystemState) : ℕ := 3 * s.nodes.length

/-- Position of the node with 1-based id `a` (ids are sequential, so the
node with id `a` sits at list index `a - 1`). -/
def SystemState.posOfId (s : SystemState) (a : ℕ) : Point :=
  match s.nodes[a - 1]? with
  | some n => n.pos
  | none => ⟨0, 0⟩

/-- Modelled from the spec: an internal hinge at a node splits rotational
continuity between the elements sharing the node (spec §3, §9); the
incident element with the least id keeps its rigid connection and every
other incident element has its end rotation released (static
condensation, spec §4.3). -/
def SystemState.releasedAt (s : SystemState) (e : Element) (a : ℕ) : Bool :=
  s.hinges.contains a &&
    s.elements.any (fun e2 =>
      (e2.startNode == a || e2.endNode == a) && decide (e2.id < e.id))

/-- Local 6×6 frame-element stiffness matrix over the DOFs
(x₁, y₁, θ₁, x₂, y₂, θ₂) (spec §4.3): EA/L axial terms plus the
Euler–Bernoulli bending terms 12EI/L³, 6EI/L², 4EI/L, 2EI/L; with an
end rotation released by an internal hinge (`hs`/`he`), the bending
block is statically condensed to the standard 3EI one-hinge form, and
to zero when both ends are released. -/
def kLocal (ea ei L : ℚ) : Bool → Bool → Matrix (Fin 6) (Fin 6) ℚ
  | false, false =>
      !![ea / L, 0, 0, -(ea / L), 0, 0;
         0, 12 * ei / L ^ 3, 6 * ei / L ^ 2, 0, -(12 * ei / L ^ 3), 6 * ei / L ^ 2;
         0, 6 * ei / L ^ 2, 4 * ei / L, 0, -(6 * ei / L ^ 2), 2 * ei / L;
         -(ea / L), 0, 0, ea / L, 0, 0;
         0, -(12 * ei / L ^ 3), -(6 * ei / L ^ 2), 0, 12 * ei / L ^ 3, -(6 * ei / L ^ 2);
         0, 6 * ei / L ^ 2, 2 * ei / L, 0, -(6 * ei / L ^ 2), 4 * ei / L]
  | false, true =>
      !![ea / L, 0, 0, -(ea / L), 0, 0;
         0, 3 * ei / L ^ 3, 3 * ei / L ^ 2, 0, -(3 * ei / L ^ 3), 0;
         0, 3 * ei / L ^ 2, 3 * ei / L, 0, -(3 * ei / L ^ 2), 0;
         -(ea / L), 0, 0, ea / L, 0, 0;
         0, -(3 * ei / L ^ 3), -(3 * ei / L ^ 2), 0, 3 * ei / L ^ 3, 0;
         0, 0, 0, 0, 0, 0]
  | true, false =>
      !![ea / L, 0, 0, -(ea / L), 0, 0;
         0, 3 * ei / L ^ 3, 0, 0, -(3 * ei / L ^ 3), 3 * ei / L ^ 2;
         0, 0, 0, 0, 0, 0;
         -(ea / L), 0, 0, ea / L, 0, 0;
         0, -(3 * ei / L ^ 3), 0, 0, 3 * ei / L ^ 3, -(3 * ei / L ^ 2);
         0, 3 * ei / L ^ 2, 0, 0, -(3 * ei / L ^ 2), 3 * ei / L]
  | true, true =>
      !![ea / L, 0, 0, -(ea / L), 0, 0;
         0, 0, 0, 0, 0, 0;
         0, 0, 0, 0, 0, 0;
         -(ea / L), 0, 0, ea / L, 0, 0;
         0, 0, 0, 0, 0, 0;
         0, 0, 0, 0, 0, 0]

/-- Global-to-local transformation built from the element's direction
cosines (spec §4.3): local x = c·gx + s·gy, local y = −s·gx + c·gy,
rotation unchanged, per node. -/
def rotT (c s : ℚ) : Matrix (Fin 6) (Fin 6) ℚ :=
  !![c, s, 0, 0, 0, 0;
     -s, c, 0, 0, 0, 0;
     0, 0, 1, 0, 0, 0;
     0, 0, 0, c, s, 0;
     0, 0, 0, -s, c, 0;
     0, 0, 0, 0, 0, 1]

/-- Direction cosine of an element, from node positions and the supplied
length. -/
def SystemState.elemCos (s : SystemState) (len : ℕ → ℚ) (e : Element) : ℚ :=
  ((s.posOfId e.endNode).x - (s.posOfId e.startNode).x) / len e.id

/-- Direction sine of an element. -/
def SystemState.elemSin (s : SystemState) (len : ℕ → ℚ) (e : Element) : ℚ :=
  ((s.posOfId e.endNode).y - (s.posOfId e.startNode).y) / len e.id

/-- Element stiffness in global coordinates: Tᵀ · k_local · T
(spec §4.3). -/
def SystemState.elemK (s : SystemState) (len : ℕ → ℚ) (e : Element) :
    Matrix (Fin 6) (Fin 6) ℚ :=
  Matrix.transpose (rotT (s.elemCos len e) (s.elemSin len e)) *
    kLocal e.EA e.EI (len e.id) (s.releasedAt e e.startNode)
      (s.releasedAt e e.endNode) *
    rotT (s.elemCos len e) (s.elemSin len e)

/-- Assembled global stiffness matrix, as a function on DOF indices:
each element scatters its 6×6 global stiffness into the rows/columns of
its six DOFs (spec §4.3). -/
def SystemState.K (s : SystemState) (len : ℕ → ℚ) (i j : ℕ) : ℚ :=
  (s.elements.map (fun e =>
    ∑ p : Fin 6, ∑ q : Fin 6,
      if elemDof e p = i ∧ elemDof e q = j then s.elemK len e p q else 0)).sum

/-- Modelled from the spec: local fixed-end force vector of a uniform
distributed load — end shears qL/2 and end moments ±qL²/12
(spec §4.3). -/
def fefLocal (q L : ℚ) : Fin 6 → ℚ :=
  ![0, q * L / 2, q * L ^ 2 / 12, 0, q * L / 2, -(q * L ^ 2 / 12)]

/-- Element with the given id, if any. -/
def SystemState.findElement (s : SystemState) (eid : ℕ) : Option Element :=
  s.elements.find? (fun el => el.id == eid)

/-- Contribution of one load to the global load vector at DOF `i`:
point loads add directly into the node's DOFs; a distributed load
scatters the back-transformed fixed-end forces into its element's DOFs
(spec §4.3).  The spec gives a single fixed-end-force formula for
uniform loads, applied in the element-local frame. -/
def SystemState.loadContrib (s : SystemState) (len : ℕ → ℚ) (l : Load)
    (i : ℕ) : ℚ :=
  match l with
  | .point a fx fy m =>
      (if i = dofOf a 0 then fx else 0) + (if i = dofOf a 1 then fy else 0) +
        (if i = dofOf a 2 then m else 0)
  | .distributed eid q _ =>
      match s.findElement eid with
      | none => 0
      | some e =>
          ∑ p : Fin 6,
            if elemDof e p = i
              then (Matrix.transpose (rotT (s.elemCos len e) (s.elemSin len e))).mulVec
                     (fefLocal q (len eid)) p
              else 0

/-- Assembled global load vector (spec §4.3). -/
def SystemState.P (s : SystemState) (len : ℕ → ℚ) (i : ℕ) : ℚ :=
  (s.loads.map (fun l => s.loadContrib len l i)).sum

/-! ## Constrained linear solver (spec §4.4) -/

/-- Which of a node's three DOF components a support kind restrains. -/
def SupportKind.restrains : SupportKind → ℕ → Bool
  | .fixed, _ => true
  | .roll, c => c == 1
  | .hinge, c => c == 0 || c == 1

/-- Whether global DOF `i` is restrained by some support (spec §4.4). -/
def SystemState.isRestrained (s : SystemState) (i : ℕ) : Bool :=
  s.supports.any (fun sp => sp.node == i / 3 + 1 && sp.kind.restrains (i % 3))

/-- The free (unrestrained) DOF indices, in increasing order
(spec §4.4). -/
def SystemState.freeDofs (s : SystemState) : List ℕ :=
  (List.range s.numDofs).filter (fun i => ! s.isRestrained i)

/-- The reduced stiffness matrix K_ff on the free DOFs (spec §4.4). -/
def SystemState.KffMat (s : SystemState) (len : ℕ → ℚ) :
    Matrix (Fin s.freeDofs.length) (Fin s.freeDofs.length) ℚ :=
  Matrix.of fun i j =>
    s.K len (s.freeDofs.getD (i : ℕ) 0) (s.freeDofs.getD (j : ℕ) 0)

/-- The reduced load vector F_f on the free DOFs (spec §4.4). -/
def SystemState.Ff (s : SystemState) (len : ℕ → ℚ) :
    Fin s.freeDofs.length → ℚ :=
  fun i => s.P len (s.freeDofs.getD (i : ℕ) 0)

/-- Result of a solve: nodal displacements and reaction forces, as
functions on global DOF indices (spec §4.4, §6). -/
structure Solution where
  u : ℕ → ℚ
  R : ℕ → ℚ

/-- Modelled from the spec: `solve` — partitions the DOFs, fails with
`SingularSystemError` when K_ff is singular, otherwise solves
K_ff·u_f = F_f (prescribed displacements are zero) and recovers the
reactions R = K·u − P at the restrained DOFs (spec §4.4).  A fresh
assembly and solve is performed on every call; the state itself is not
modified (spec §3, §5). -/
def SystemState.solve (s : SystemState) (len : ℕ → ℚ) :
    Except SolveError Solution :=
  if (s.KffMat len).det = 0 then .error .singularSystem
  else
    let uf := ((s.KffMat len).det⁻¹ • (s.KffMat len).adjugate).mulVec (s.Ff len)
    let u : ℕ → ℚ := fun i =>
      if hm : i ∈ s.freeDofs then
        uf ⟨s.freeDofs.indexOf i, List.indexOf_lt_length.mpr hm⟩
      else 0
    .ok ⟨u, fun i =>
      if s.isRestrained i ∧ i < s.numDofs then
        (∑ j ∈ Finset.range s.numDofs, s.K len i j * u j) - s.P len i
      else 0⟩

/-- A full solve invocation: computes a fresh solution from the current
state snapshot and hands the (unmodified) state back (spec §3, §5). -/
def SystemState.solveCall (s : SystemState) (len : ℕ → ℚ) :
    Except SolveError (Solution × SystemState) :=
  (s.solve len).map (fun sol => (sol, s))

/-! ## Embedding of `src/app.py`

The parametrization and the two computational controller methods.
`F` is the (opaque) type of an uploaded Excel file's contents; the
hosted spreadsheet evaluation service is passed in as a function. -/

/-- Fields of the "Structure" section of the geometry step
(`src/app.py`, `Parametrization`). -/
structure StructureParams where
  height : ℚ
  length : ℚ
deriving DecidableEq, Repr

/-- Fields of the "Tube design" section (`src/app.py`). -/
structure TubeParams (F : Type) where
  excel_file : Option F
  tube_width : ℚ
  tube_height : ℚ
  tube_thickness : ℚ
  emodulus : ℚ
  moment_of_inertia : ℚ
deriving DecidableEq, Repr

/-- The geometry step (`src/app.py`). -/
structure GeometryParams (F : Type) where
  struct : StructureParams
  tube : TubeParams F
deriving DecidableEq, Repr

/-- The forces step (`src/app.py`). -/
structure ForcesParams where
  magnitude : ℚ
  element : ℕ
deriving DecidableEq, Repr

/-- The app's parameter set (`src/app.py`, `Parametrization`);
`geometry.struct` embeds the Python `geometry.structure` section
(`structure` is a Lean keyword). -/
structure Params (F : Type) where
  geometry : GeometryParams F
  forces : ForcesParams
deriving DecidableEq, Repr

/-- Errors the controller methods can raise: a `UserError` shown to the
user, or a Python `KeyError` for a missing spreadsheet result key. -/
inductive AppError
  | userError (msg : String)
  | keyError (key : String)
deriving DecidableEq, Repr

/-- A `SetParamsResult`: which of the app's numeric parameters the
result sets (`none` leaves the parameter untouched). -/
structure SetParamsDelta where
  height : Option ℚ := none
  length : Option ℚ := none
  tube_width : Option ℚ := none
  tube_height : Option ℚ := none
  tube_thickness : Option ℚ := none
  emodulus : Option ℚ := none
  moment_of_inertia : Option ℚ := none
  magnitude : Option ℚ := none
deriving DecidableEq, Repr

/-- `Controller.calculate_moment_of_inertia` (`src/app.py` lines 71–91):
without an uploaded Excel file it raises a `UserError`; otherwise it
evaluates the spreadsheet on the tube width/height/thickness inputs,
reads the `moment_of_inertia` output (a missing key is a `KeyError`),
and returns a `SetParamsResult` setting only
`geometry.tube.moment_of_inertia`.  `evalSheet` models the Viktor
spreadsheet-calculation service (file, width, height, thickness,
output key). -/
def calculate_moment_of_inertia {F : Type} (params : Params F)
    (evalSheet : F → ℚ → ℚ → ℚ → String → Option ℚ) :
    Except AppError SetParamsDelta :=
  match params.geometry.tube.excel_file with
  | none =>
      .error (.userError
        ("Please first upload an excel file which calculates the moment of inertia"))
  | some f =>
      match evalSheet f params.geometry.tube.tube_width
          params.geometry.tube.tube_height params.geometry.tube.tube_thickness
          ("moment_of_inertia") with
      | none => .error (.keyError ("moment_of_inertia"))
      | some v => .ok { moment_of_inertia := some v }

/-- Modelled from the spec: the external library's default system
stiffnesses, used by `SystemElements()` when no Excel file is uploaded
(`src/app.py` line 99); their exact values are immaterial to every
claim. -/
def libraryDefaultEA : ℚ := 15000

/-- Modelled from the spec: the external library's default bending
stiffness (see `libraryDefaultEA`). -/
def libraryDefaultEI : ℚ := 5000

/-- `Controller.make_analysis` (`src/app.py` lines 94–112): constructs
the system (library defaults without an Excel file, otherwise
EA = emodulus·tube_height·tube_thickness and
EI = emodulus·moment_of_inertia), adds the three portal-frame elements
(0,0)–(0,h), (0,h)–(l,h), (l,h)–(l,0), and fixes nodes 1 and 4. -/
def make_analysis {F : Type} (params : Params F) :
    Except BuildError SystemState := do
  let height := params.geometry.struct.height
  let length := params.geometry.struct.length
  let se : SystemState :=
    match params.geometry.tube.excel_file with
    | none => SystemState.init libraryDefaultEA libraryDefaultEI
    | some _ =>
        SystemState.init
          (params.geometry.tube.emodulus * params.geometry.tube.tube_height *
            params.geometry.tube.tube_thickness)
          (params.geometry.tube.emodulus * params.geometry.tube.moment_of_inertia)
  let se ← se.addElement ⟨0, 0⟩ ⟨0, height⟩
  let se ← se.addElement ⟨0, height⟩ ⟨length, height⟩
  let se ← se.addElement ⟨length, height⟩ ⟨length, 0⟩
  let se ← se.addSupportFixed 1
  let se ← se.addSupportFixed 4
  return se

/-! ## Concrete structures used by the witnesses -/

/-- Unit length assignment for the concrete witness structures (all
their elements have length 1). -/
def lenOne : ℕ → ℚ := fun _ => 1

/-- A concrete cantilever: one vertical unit element (EA = EI = 1) fixed
at the base node, carrying a unit horizontal tip load.  This is the
state produced by `init 1 1`, `addElement (0,0) (0,1)`,
`addSupportFixed 1`, `addPointLoad 2 1 0 0`. -/
def cantileverState : SystemState :=
  ⟨1, 1, 0, [⟨1, ⟨0, 0⟩⟩, ⟨2, ⟨0, 1⟩⟩], [⟨1, 1, 2, 1, 1⟩],
   [⟨1, .fixed⟩], [.point 2 1 0 0], []⟩

/-- The same single element with no supports at all: an under-constrained
structure. -/
def freeElementState : SystemState :=
  ⟨1, 1, 0, [⟨1, ⟨0, 0⟩⟩, ⟨2, ⟨0, 1⟩⟩], [⟨1, 1, 2, 1, 1⟩], [], [], []⟩

/-- A propped cantilever: the vertical unit element fixed at the base and
pinned at the tip, loaded at the tip; exactly one free DOF (the tip
rotation), so K_ff is the 1×1 matrix [4EI/L] = [4]. -/
def proppedState : SystemState :=
  ⟨1, 1, 0, [⟨1, ⟨0, 0⟩⟩, ⟨2, ⟨0, 1⟩⟩], [⟨1, 1, 2, 1, 1⟩],
   [⟨1, .fixed⟩, ⟨2, .hinge⟩], [.point 2 1 2 3], []⟩

/-- The propped cantilever with a zero-bending-stiffness element: the
single free DOF (tip rotation) is a released mechanism, so K_ff = [0]
is singular. -/
def singularState : SystemState :=
  ⟨1, 0, 0, [⟨1, ⟨0, 0⟩⟩, ⟨2, ⟨0, 1⟩⟩], [⟨1, 1, 2, 1, 0⟩],
   [⟨1, .fixed⟩, ⟨2, .hinge⟩], [], []⟩

/-- Element endpoints reference nodes inside the node registry. -/
def SystemState.boundedElems (s : SystemState) : Prop :=
  ∀ e ∈ s.elements,
    1 ≤ e.startNode ∧ e.startNode ≤ s.nodes.length ∧
    1 ≤ e.endNode ∧ e.endNode ≤ s.nodes.length

instance (s : SystemState) : Decidable s.boundedElems := by
  unfold SystemState.boundedElems; infer_instance

/-- The registry invariant: element and node ids are sequential starting
at 1, and element endpoints reference existing nodes. -/
def SystemState.goodIds (s : SystemState) : Prop :=
  s.elements.map Element.id = List.range' 1 s.elements.length ∧
  s.nodes.map Node.id = List.range' 1 s.nodes.length ∧ s.boundedElems

instance (s : SystemState) : Decidable s.goodIds := by
  unfold SystemState.goodIds; infer_instance

/-- Rigid x-translation mode on the global DOFs: 1 at every
x-translation DOF. -/
def rigidX : ℕ → ℚ := fun i => if i % 3 = 0 then 1 else 0

/-- Rigid y-translation mode on the global DOFs. -/
def rigidY : ℕ → ℚ := fun i => if i % 3 = 1 then 1 else 0

/-- Rigid rotation mode about the point (px, py): at the node with DOFs
3k, 3k+1, 3k+2 it is (−(y−py), x−px, 1) where (x, y) is the node's
position. -/
def SystemState.rigidM (s : SystemState) (px py : ℚ) : ℕ → ℚ := fun i =>
  if i % 3 = 0 then -((s.posOfId (i / 3 + 1)).y - py)
  else if i % 3 = 1 then (s.posOfId (i / 3 + 1)).x - px
  else 1

/-- The free-DOF displacement solution produced by a successful solve,
as a function on global DOF indices. -/
def SystemState.uSol (s : SystemState) (len : ℕ → ℚ) : ℕ → ℚ := fun i =>
  if hm : i ∈ s.freeDofs then
    (((s.KffMat len).det⁻¹ • (s.KffMat len).adjugate).mulVec (s.Ff len))
      ⟨s.freeDofs.indexOf i, List.indexOf_lt_length.mpr hm⟩
  else 0

/-- The reaction vector produced by a successful solve. -/
def SystemState.RSol (s : SystemState) (len : ℕ → ℚ) : ℕ → ℚ := fun i =>
  if s.isRestrained i ∧ i < s.numDofs then
    (∑ j ∈ Finset.range s.numDofs, s.K len i j * s.uSol len j) - s.P len i
  else 0

/-! ## Helper lemmas -/

lemma resolveNode_supports (s : SystemState) (p : Point) :
    (s.resolveNode p).2.supports = s.supports := by
  unfold SystemState.resolveNode
  cases s.findNode p <;> rfl

lemma resolveNode_loads (s : SystemState) (p : Point) :
    (s.resolveNode p).2.loads = s.loads := by
  unfold SystemState.resolveNode
  cases s.findNode p <;> rfl

lemma resolveNode_hinges (s : SystemState) (p : Point) :
    (s.resolveNode p).2.hinges = s.hinges := by
  unfold SystemState.resolveNode
  cases s.findNode p <;> rfl

lemma addElement_ok_supports {s s' : SystemState} {p q : Point}
    (h : s.addElement p q = .ok s') : s'.supports = s.supports := by
  simp only [SystemState.addElement] at h
  split at h
  · exact absurd h (by simp)
  · cases h
    simp [resolveNode_supports]

lemma addSupport_ok {s s' : SystemState} {a : ℕ} {k : SupportKind}
    (h : s.addSupport a k = .ok s') :
    s.hasNode a = true ∧ s.hasSupport a = false ∧
      s'.supports = s.supports ++ [⟨a, k⟩] := by
  unfold SystemState.addSupport at h
  split_ifs at h with h1 h2
  · cases h
    refine ⟨by simpa using h1, by simpa using h2, rfl⟩

lemma addInternalHinge_ok_supports {s s' : SystemState} {a : ℕ}
    (h : s.addInternalHinge a = .ok s') : s'.supports = s.supports := by
  unfold SystemState.addInternalHinge at h
  split_ifs at h
  cases h; rfl

lemma addPointLoad_ok {s s' : SystemState} {a : ℕ} {fx fy m : ℚ}
    (h : s.addPointLoad a fx fy m = .ok s') :
    s.hasNode a = true ∧
      s' = { s with loads := s.loads ++ [.point a fx fy m] } := by
  unfold SystemState.addPointLoad at h
  split_ifs at h with h1
  cases h
  exact ⟨by simpa using h1, rfl⟩

lemma addDistributedLoad_ok {s s' : SystemState} {e : ℕ} {q : ℚ}
    {dir : LoadDirection} (h : s.addDistributedLoad e q dir = .ok s') :
    s.hasElement e = true ∧
      s' = { s with loads := s.loads ++ [.distributed e q dir] } := by
  unfold SystemState.addDistributedLoad at h
  split_ifs at h with h1
  cases h
  exact ⟨by simpa using h1, rfl⟩

lemma hasSupport_false_not_mem {s : SystemState} {a : ℕ}
    (h : s.hasSupport a = false) : a ∉ s.supports.map Support.node := by
  intro hmem
  rw [List.mem_map] at hmem
  obtain ⟨sp, hsp, hnode⟩ := hmem
  have h2 : ∀ x ∈ s.supports, ¬ x.node = a := by
    simpa [SystemState.hasSupport] using h
  exact h2 sp hsp hnode

lemma applyOp_supports_nodup {s s' : SystemState} {op : Op}
    (hnd : (s.supports.map Support.node).Nodup) (h : s.applyOp op = .ok s') :
    (s'.supports.map Support.node).Nodup := by
  cases op with
  | addElement p q =>
      rw [show s.applyOp (.addElement p q) = s.addElement p q from rfl] at h
      rw [addElement_ok_supports h]; exact hnd
  | supportFixed a =>
      obtain ⟨-, hdup, hsup⟩ := addSupport_ok (s := s) (a := a) (k := .fixed) h
      rw [hsup, List.map_append, List.nodup_append]
      exact ⟨hnd, by simp, by
        intro x hx hx2
        simp at hx2
        exact hasSupport_false_not_mem hdup (hx2 ▸ hx)⟩
  | supportRoll a =>
      obtain ⟨-, hdup, hsup⟩ := addSupport_ok (s := s) (a := a) (k := .roll) h
      rw [hsup, List.map_append, List.nodup_append]
      exact ⟨hnd, by simp, by
        intro x hx hx2
        simp at hx2
        exact hasSupport_false_not_mem hdup (hx2 ▸ hx)⟩
  | internalHinge a =>
      rw [addInternalHinge_ok_supports h]; exact hnd
  | pointLoad a fx fy m =>
      obtain ⟨-, rfl⟩ := addPointLoad_ok h
      exact hnd
  | distLoad e q dir =>
      obtain ⟨-, rfl⟩ := addDistributedLoad_ok h
      exact hnd

lemma runOps_supports_nodup {ops : List Op} : ∀ {s s' : SystemState},
    (s.supports.map Support.node).Nodup → s.runOps ops = .ok s' →
    (s'.supports.map Support.node).Nodup := by
  induction ops with
  | nil =>
      intro s s' hnd h
      rw [SystemState.runOps] at h
      cases h; exact hnd
  | cons op ops ih =>
      intro s s' hnd h
      rw [SystemState.runOps] at h
      cases hop : s.applyOp op with
      | error e => rw [hop] at h; simp [Bind.bind, Except.bind] at h
      | ok s1 =>
          rw [hop] at h
          simp only [Bind.bind, Except.bind] at h
          exact ih (applyOp_supports_nodup hnd hop) h

lemma mem_range_one {m n : ℕ} : m ∈ List.range' 1 n ↔ 1 ≤ m ∧ m ≤ n := by
  rw [List.mem_range']
  constructor
  · rintro ⟨i, hi, rfl⟩; omega
  · intro h; exact ⟨m - 1, by omega, by omega⟩

/-- A load's contribution only reads the geometry (elements, nodes,
hinges) of the state, never its load list. -/
lemma loadContrib_congr {s s2 : SystemState} (he : s2.elements = s.elements)
    (hn : s2.nodes = s.nodes) (len : ℕ → ℚ) (l : Load) (i : ℕ) :
    s2.loadContrib len l i = s.loadContrib len l i := by
  cases l <;>
    simp [SystemState.loadContrib, SystemState.findElement, SystemState.elemCos,
      SystemState.elemSin, SystemState.posOfId, he, hn]

lemma loadContrib_point_add (s : SystemState) (len : ℕ → ℚ) (a : ℕ)
    (fx1 fy1 m1 fx2 fy2 m2 : ℚ) (i : ℕ) :
    s.loadContrib len (.point a fx1 fy1 m1) i +
        s.loadContrib len (.point a fx2 fy2 m2) i =
      s.loadContrib len (.point a (fx1 + fx2) (fy1 + fy2) (m1 + m2)) i := by
  simp only [SystemState.loadContrib]
  split_ifs <;> ring

lemma resolveNode_invariant {s : SystemState} (p : Point)
    (hn : s.nodes.map Node.id = List.range' 1 s.nodes.length) :
    (s.resolveNode p).2.nodes.map Node.id =
        List.range' 1 (s.resolveNode p).2.nodes.length ∧
    1 ≤ (s.resolveNode p).1 ∧
    (s.resolveNode p).1 ≤ (s.resolveNode p).2.nodes.length ∧
    s.nodes.length ≤ (s.resolveNode p).2.nodes.length ∧
    (s.resolveNode p).2.elements = s.elements ∧
    (s.resolveNode p).2.EA = s.EA ∧ (s.resolveNode p).2.EI = s.EI := by
  unfold SystemState.resolveNode
  cases hf : s.findNode p with
  | some n =>
      have hmem : n ∈ s.nodes := List.mem_of_find?_eq_some hf
      have hid : n.id ∈ s.nodes.map Node.id := List.mem_map_of_mem _ hmem
      rw [hn, mem_range_one] at hid
      exact ⟨hn, hid.1, hid.2, le_refl _, rfl, rfl, rfl⟩
  | none =>
      refine ⟨?_, by simp, by simp, by simp, rfl, rfl, rfl⟩
      simp only [List.map_append, List.length_append, hn]
      simp [List.range'_1_concat, Nat.add_comm]

lemma addElement_invariant {s s' : SystemState} {p q : Point}
    (hg : s.goodIds) (h : s.addElement p q = .ok s') :
    s'.goodIds ∧ s'.elements.length = s.elements.length + 1 := by
  obtain ⟨hel, hnd, hbd⟩ := hg
  have r1 := resolveNode_invariant p hnd
  have r2 := resolveNode_invariant q r1.1
  simp only [SystemState.addElement] at h
  split at h
  · exact absurd h (by simp)
  · cases h
    have he2 : ((s.resolveNode p).2.resolveNode q).2.elements = s.elements := by
      rw [r2.2.2.2.2.1, r1.2.2.2.2.1]
    refine ⟨⟨?_, r2.1, ?_⟩, by simp [he2]⟩
    · simp only [List.map_append, List.length_append, he2, hel]
      simp [List.range'_1_concat, Nat.add_comm]
    · intro e he
      simp only [r2.2.2.2.2.1, r1.2.2.2.2.1] at he ⊢
      rw [List.mem_append] at he
      rcases he with he | he
      · have := hbd e he
        have h4 := r1.2.2.2.1
        have h5 := r2.2.2.2.1
        omega
      · simp at he
        subst he
        have g1 := r1.2.1
        have g2 := r1.2.2.1
        have g3 := r2.2.1
        have g4 := r2.2.2.1
        have g5 := r2.2.2.2.1
        simp only []
        omega

lemma buildElements_invariant : ∀ (ps : List (Point × Point))
    {s s' : SystemState}, s.goodIds → s.buildElements ps = .ok s' →
    s'.goodIds ∧ s'.elements.length = s.elements.length + ps.length := by
  intro ps
  induction ps with
  | nil =>
      intro s s' hg h
      rw [SystemState.buildElements] at h
      cases h
      exact ⟨hg, by simp⟩
  | cons pq rest ih =>
      intro s s' hg h
      obtain ⟨p, q⟩ := pq
      rw [SystemState.buildElements] at h
      cases hop : s.addElement p q with
      | error e => rw [hop] at h; simp [Bind.bind, Except.bind] at h
      | ok s1 =>
          rw [hop] at h
          simp only [Bind.bind, Except.bind] at h
          obtain ⟨hg1, hlen1⟩ := addElement_invariant hg hop
          obtain ⟨hg2, hlen2⟩ := ih hg1 h
          exact ⟨hg2, by simp [hlen2, hlen1]; omega⟩

/-! ## Claim theorems -/

/-- C1: for every structure whose reduced stiffness matrix K_ff is
singular (insufficient supports, e.g. no supports at all), `solve` fails
with `SingularSystemError` instead of returning displacement values. -/
theorem solve_fails_on_singular_Kff (s : SystemState) (len : ℕ → ℚ)
    (h : (s.KffMat len).det = 0) :
    s.solve len = .error .singularSystem := by
  unfold SystemState.solve
  rw [if_pos h]

/-- C3: `solve` is a pure function of the current state snapshot: a solve
invocation hands the state back unchanged, so calling it twice without
an intervening state change performs the same fresh assembly and solve
and yields identical displacement and reaction values. -/
theorem solve_deterministic (s : SystemState) (len : ℕ → ℚ)
    (sol : Solution) (s1 : SystemState)
    (h : s.solveCall len = .ok (sol, s1)) :
    s1 = s ∧ s1.solveCall len = .ok (sol, s1) := by
  unfold SystemState.solveCall at h ⊢
  cases hvs : s.solve len with
  | error e => rw [hvs] at h; simp [Except.map] at h
  | ok sol2 =>
      rw [hvs] at h
      simp only [Except.map] at h
      obtain ⟨h1, h2⟩ := Prod.mk.injEq .. ▸ Except.ok.inj h
      subst h1 h2
      exact ⟨rfl, by rw [hvs]; rfl⟩

/-- C6: adding a support (of any kind) to a node that already carries a
support fails with `DuplicateSupportError`; consequently, in any state
reached by running build operations from a state whose supported nodes
are distinct, at most one support per node is ever stored. -/
theorem second_support_duplicate_error :
    (∀ (s : SystemState) (a : ℕ) (k : SupportKind),
        s.hasNode a = true → s.hasSupport a = true →
        s.addSupport a k = .error .duplicateSupport) ∧
    (∀ (ops : List Op) (s s' : SystemState),
        (s.supports.map Support.node).Nodup → s.runOps ops = .ok s' →
        (s'.supports.map Support.node).Nodup) := by
  constructor
  · intro s a k h1 h2
    unfold SystemState.addSupport
    rw [if_neg (by simp [h1]), if_pos (by simp [h2])]
  · intro ops s s' hnd h
    exact runOps_supports_nodup hnd h

/-- C7: every boundary-condition and load call validates its referenced
node/element id: a dangling id fails with `UnknownReferenceError`, and a
successful call implies the id existed. -/
theorem dangling_reference_error :
    (∀ (s : SystemState) (a : ℕ), s.hasNode a = false →
        s.addSupportFixed a = .error .unknownReference) ∧
    (∀ (s s' : SystemState) (a : ℕ), s.addSupportFixed a = .ok s' →
        s.hasNode a = true) ∧
    (∀ (s : SystemState) (a : ℕ), s.hasNode a = false →
        s.addSupportRoll a = .error .unknownReference) ∧
    (∀ (s s' : SystemState) (a : ℕ), s.addSupportRoll a = .ok s' →
        s.hasNode a = true) ∧
    (∀ (s : SystemState) (a : ℕ), s.hasNode a = false →
        s.addInternalHinge a = .error .unknownReference) ∧
    (∀ (s s' : SystemState) (a : ℕ), s.addInternalHinge a = .ok s' →
        s.hasNode a = true) ∧
    (∀ (s : SystemState) (a : ℕ) (fx fy m : ℚ), s.hasNode a = false →
        s.addPointLoad a fx fy m = .error .unknownReference) ∧
    (∀ (s s' : SystemState) (a : ℕ) (fx fy m : ℚ),
        s.addPointLoad a fx fy m = .ok s' → s.hasNode a = true) ∧
    (∀ (s : SystemState) (e : ℕ) (q : ℚ) (dir : LoadDirection),
        s.hasElement e = false →
        s.addDistributedLoad e q dir = .error .unknownReference) ∧
    (∀ (s s' : SystemState) (e : ℕ) (q : ℚ) (dir : LoadDirection),
        s.addDistributedLoad e q dir = .ok s' → s.hasElement e = true) := by
  refine ⟨?_, ?_, ?_, ?_, ?_, ?_, ?_, ?_, ?_, ?_⟩
  · intro s a h
    unfold SystemState.addSupportFixed SystemState.addSupport
    rw [if_pos (by simp [h])]
  · intro s s' a h
    exact (addSupport_ok h).1
  · intro s a h
    unfold SystemState.addSupportRoll SystemState.addSupport
    rw [if_pos (by simp [h])]
  · intro s s' a h
    exact (addSupport_ok h).1
  · intro s a h
    unfold SystemState.addInternalHinge
    rw [if_pos (by simp [h])]
  · intro s s' a h
    unfold SystemState.addInternalHinge at h
    split_ifs at h with h1
    simpa using h1
  · intro s a fx fy m h
    unfold SystemState.addPointLoad
    rw [if_pos (by simp [h])]
  · intro s s' a fx fy m h
    exact (addPointLoad_ok h).1
  · intro s e q dir h
    unfold SystemState.addDistributedLoad
    rw [if_pos (by simp [h])]
  · intro s s' e q dir h
    exact (addDistributedLoad_ok h).1

lemma P_update_loads (s : SystemState) (ls : List Load) (len : ℕ → ℚ) (i : ℕ) :
    ({ s with loads := ls } : SystemState).P len i =
      (ls.map (fun l => s.loadContrib len l i)).sum := by
  simp only [SystemState.P]
  have hc : ∀ l, ({ s with loads := ls } : SystemState).loadContrib len l i =
      s.loadContrib len l i := fun l => loadContrib_congr rfl rfl len l i
  simp [hc]

/-- C8: two point loads added at the same node accumulate (vector sum):
after both calls the global load vector coincides, at every DOF, with the
one produced by a single combined point load. -/
theorem point_loads_accumulate (s : SystemState) (len : ℕ → ℚ) (a : ℕ)
    (fx1 fy1 m1 fx2 fy2 m2 : ℚ) (s1 s2 s3 : SystemState)
    (h1 : s.addPointLoad a fx1 fy1 m1 = .ok s1)
    (h2 : s1.addPointLoad a fx2 fy2 m2 = .ok s2)
    (h3 : s.addPointLoad a (fx1 + fx2) (fy1 + fy2) (m1 + m2) = .ok s3)
    (i : ℕ) : s2.P len i = s3.P len i := by
  obtain ⟨-, rfl⟩ := addPointLoad_ok h1
  obtain ⟨-, rfl⟩ := addPointLoad_ok h2
  obtain ⟨-, rfl⟩ := addPointLoad_ok h3
  show ({ s with loads := (s.loads ++ [.point a fx1 fy1 m1]) ++
      [.point a fx2 fy2 m2] } : SystemState).P len i =
    ({ s with loads := s.loads ++
      [.point a (fx1 + fx2) (fy1 + fy2) (m1 + m2)] } : SystemState).P len i
  rw [P_update_loads, P_update_loads]
  simp only [List.map_append, List.sum_append, List.map_cons, List.map_nil,
    List.sum_cons, List.sum_nil]
  rw [← loadContrib_point_add]
  ring

/-- C4: element ids are assigned sequentially starting at 1 over any
sequence of `addElement` calls; node ids are likewise sequential, every
element endpoint references an existing node id, an endpoint matching a
previously created node's position (within the tolerance) reuses that
node, and a non-matching endpoint creates a fresh node at element-add
time. -/
theorem addElement_sequential_ids_and_node_reuse :
    (∀ (ea ei : ℚ) (ps : List (Point × Point)) (s' : SystemState),
        (SystemState.init ea ei).buildElements ps = .ok s' →
        s'.elements.map Element.id = List.range' 1 ps.length ∧
        s'.nodes.map Node.id = List.range' 1 s'.nodes.length ∧
        ∀ e ∈ s'.elements, e.startNode ∈ s'.nodes.map Node.id ∧
          e.endNode ∈ s'.nodes.map Node.id) ∧
    (∀ (s : SystemState) (p : Point) (n : Node), s.findNode p = some n →
        s.resolveNode p = (n.id, s)) ∧
    (∀ (s : SystemState) (p : Point), s.findNode p = none →
        s.resolveNode p = (s.nodes.length + 1,
          { s with nodes := s.nodes ++ [⟨s.nodes.length + 1, p⟩] })) ∧
    (∀ (s s' : SystemState) (p q : Point), s.addElement p q = .ok s' →
        s'.elements = ((s.resolveNode p).2.resolveNode q).2.elements ++
          [⟨((s.resolveNode p).2.resolveNode q).2.elements.length + 1,
            (s.resolveNode p).1, ((s.resolveNode p).2.resolveNode q).1,
            s.EA, s.EI⟩] ∧
        s'.nodes = ((s.resolveNode p).2.resolveNode q).2.nodes) := by
  refine ⟨?_, ?_, ?_, ?_⟩
  · intro ea ei ps s' h
    have hinit : (SystemState.init ea ei).goodIds := by
      refine ⟨by simp [SystemState.init], by simp [SystemState.init], ?_⟩
      intro e he
      simp [SystemState.init] at he
    obtain ⟨⟨h1, h2, h3⟩, hlen⟩ := buildElements_invariant ps hinit h
    have hlen' : s'.elements.length = ps.length := by
      simpa [SystemState.init] using hlen
    refine ⟨by rw [h1, hlen'], h2, ?_⟩
    intro e he
    have hb := h3 e he
    rw [h2, mem_range_one, mem_range_one]
    exact ⟨⟨hb.1, hb.2.1⟩, hb.2.2.1, hb.2.2.2⟩
  · intro s p n hn
    unfold SystemState.resolveNode
    rw [hn]
  · intro s p hn
    unfold SystemState.resolveNode
    rw [hn]
  · intro s s' p q h
    simp only [SystemState.addElement] at h
    split at h
    · exact absurd h (by simp)
    · cases h
      exact ⟨rfl, rfl⟩

lemma near_zero_iff (p q : Point) : (Point.near 0 p q = true) ↔ p = q := by
  cases p; cases q
  simp [Point.near, abs_nonpos_iff, sub_eq_zero, Point.mk.injEq, and_comm]

lemma near_zero_self (p : Point) : Point.near 0 p p = true :=
  (near_zero_iff p p).mpr rfl

lemma near_zero_false {p q : Point} (hne : p ≠ q) : Point.near 0 p q = false :=
  Bool.eq_false_iff.mpr (fun ht => hne ((near_zero_iff p q).mp ht))

/-- C9: without an uploaded Excel file, `calculate_moment_of_inertia`
raises a `UserError` asking for an upload and returns no
`SetParamsResult`; with a file whose spreadsheet evaluation yields a
`moment_of_inertia` value, it returns a `SetParamsResult` that sets only
`geometry.tube.moment_of_inertia` (to that value) and no other
parameter. -/
theorem calculate_moment_of_inertia_spec {F : Type} (p : Params F)
    (evalSheet : F → ℚ → ℚ → ℚ → String → Option ℚ) :
    (p.geometry.tube.excel_file = none →
      calculate_moment_of_inertia p evalSheet = .error (.userError
        ("Please first upload an excel file which calculates the moment of inertia"))) ∧
    (∀ (f : F) (v : ℚ), p.geometry.tube.excel_file = some f →
      evalSheet f p.geometry.tube.tube_width p.geometry.tube.tube_height
        p.geometry.tube.tube_thickness ("moment_of_inertia") = some v →
      calculate_moment_of_inertia p evalSheet = .ok
        { height := none, length := none, tube_width := none,
          tube_height := none, tube_thickness := none, emodulus := none,
          moment_of_inertia := some v, magnitude := none }) := by
  constructor
  · intro h
    unfold calculate_moment_of_inertia
    rw [h]
  · intro f v hf hv
    unfold calculate_moment_of_inertia
    rw [hf]
    simp only [hv]

/-- Witness for C9: at a concrete parameter set, the missing-file branch
raises the `UserError` and the present-file branch (with a spreadsheet
evaluating `moment_of_inertia` to 7) sets exactly that parameter. -/
theorem calculate_moment_of_inertia_spec_witness :
    calculate_moment_of_inertia (F := Unit)
        ⟨⟨⟨500, 500⟩, ⟨none, 20, 20, 5, 70000, 0⟩⟩, ⟨5, 2⟩⟩
        (fun _ _ _ _ _ => some 7) =
      .error (.userError
        ("Please first upload an excel file which calculates the moment of inertia")) ∧
    calculate_moment_of_inertia (F := Unit)
        ⟨⟨⟨500, 500⟩, ⟨some (), 20, 20, 5, 70000, 0⟩⟩, ⟨5, 2⟩⟩
        (fun _ _ _ _ _ => some 7) =
      .ok { moment_of_inertia := some 7 } :=
  ⟨(calculate_moment_of_inertia_spec _ _).1 rfl,
   (calculate_moment_of_inertia_spec _ _).2 () 7 rfl rfl⟩

lemma portal_step1 (ea ei h : ℚ) (hh : 0 < h) :
    (SystemState.init ea ei).addElement ⟨0, 0⟩ ⟨0, h⟩ =
      .ok ⟨ea, ei, 0, [⟨1, ⟨0, 0⟩⟩, ⟨2, ⟨0, h⟩⟩], [⟨1, 1, 2, ea, ei⟩],
        [], [], []⟩ := by
  have hab : (⟨0, 0⟩ : Point) ≠ ⟨0, h⟩ := fun he => hh.ne (congrArg Point.y he)
  simp [SystemState.addElement, SystemState.resolveNode, SystemState.findNode,
    SystemState.init, List.find?, near_zero_false hab]

lemma portal_step2 (ea ei h L : ℚ) (hh : 0 < h) (hl : 0 < L) :
    (⟨ea, ei, 0, [⟨1, ⟨0, 0⟩⟩, ⟨2, ⟨0, h⟩⟩], [⟨1, 1, 2, ea, ei⟩], [], [], []⟩ :
        SystemState).addElement ⟨0, h⟩ ⟨L, h⟩ =
      .ok ⟨ea, ei, 0, [⟨1, ⟨0, 0⟩⟩, ⟨2, ⟨0, h⟩⟩, ⟨3, ⟨L, h⟩⟩],
        [⟨1, 1, 2, ea, ei⟩, ⟨2, 2, 3, ea, ei⟩], [], [], []⟩ := by
  have hab : (⟨0, 0⟩ : Point) ≠ ⟨0, h⟩ := fun he => hh.ne (congrArg Point.y he)
  have hac : (⟨0, 0⟩ : Point) ≠ ⟨L, h⟩ := fun he => hl.ne (congrArg Point.x he)
  have hbc : (⟨0, h⟩ : Point) ≠ ⟨L, h⟩ := fun he => hl.ne (congrArg Point.x he)
  simp [SystemState.addElement, SystemState.resolveNode, SystemState.findNode,
    List.find?, near_zero_false hab, near_zero_false hac, near_zero_false hbc,
    near_zero_self]

lemma portal_step3 (ea ei h L : ℚ) (hh : 0 < h) (hl : 0 < L) :
    (⟨ea, ei, 0, [⟨1, ⟨0, 0⟩⟩, ⟨2, ⟨0, h⟩⟩, ⟨3, ⟨L, h⟩⟩],
        [⟨1, 1, 2, ea, ei⟩, ⟨2, 2, 3, ea, ei⟩], [], [], []⟩ :
        SystemState).addElement ⟨L, h⟩ ⟨L, 0⟩ =
      .ok ⟨ea, ei, 0,
        [⟨1, ⟨0, 0⟩⟩, ⟨2, ⟨0, h⟩⟩, ⟨3, ⟨L, h⟩⟩, ⟨4, ⟨L, 0⟩⟩],
        [⟨1, 1, 2, ea, ei⟩, ⟨2, 2, 3, ea, ei⟩, ⟨3, 3, 4, ea, ei⟩],
        [], [], []⟩ := by
  have hac : (⟨0, 0⟩ : Point) ≠ ⟨L, h⟩ := fun he => hl.ne (congrArg Point.x he)
  have hbc : (⟨0, h⟩ : Point) ≠ ⟨L, h⟩ := fun he => hl.ne (congrArg Point.x he)
  have had : (⟨0, 0⟩ : Point) ≠ ⟨L, 0⟩ := fun he => hl.ne (congrArg Point.x he)
  have hbd : (⟨0, h⟩ : Point) ≠ ⟨L, 0⟩ := fun he => hl.ne (congrArg Point.x he)
  have hcd : (⟨L, h⟩ : Point) ≠ ⟨L, 0⟩ := fun he => hh.ne' (congrArg Point.y he)
  simp [SystemState.addElement, SystemState.resolveNode, SystemState.findNode,
    List.find?, near_zero_false hac, near_zero_false hbc, near_zero_false had,
    near_zero_false hbd, near_zero_false hcd, near_zero_self]

lemma portal_step4 (ea ei h L : ℚ) :
    (⟨ea, ei, 0,
        [⟨1, ⟨0, 0⟩⟩, ⟨2, ⟨0, h⟩⟩, ⟨3, ⟨L, h⟩⟩, ⟨4, ⟨L, 0⟩⟩],
        [⟨1, 1, 2, ea, ei⟩, ⟨2, 2, 3, ea, ei⟩, ⟨3, 3, 4, ea, ei⟩],
        [], [], []⟩ : SystemState).addSupportFixed 1 =
      .ok ⟨ea, ei, 0,
        [⟨1, ⟨0, 0⟩⟩, ⟨2, ⟨0, h⟩⟩, ⟨3, ⟨L, h⟩⟩, ⟨4, ⟨L, 0⟩⟩],
        [⟨1, 1, 2, ea, ei⟩, ⟨2, 2, 3, ea, ei⟩, ⟨3, 3, 4, ea, ei⟩],
        [⟨1, .fixed⟩], [], []⟩ := by
  simp [SystemState.addSupportFixed, SystemState.addSupport,
    SystemState.hasNode, SystemState.hasSupport]

lemma portal_step5 (ea ei h L : ℚ) :
    (⟨ea, ei, 0,
        [⟨1, ⟨0, 0⟩⟩, ⟨2, ⟨0, h⟩⟩, ⟨3, ⟨L, h⟩⟩, ⟨4, ⟨L, 0⟩⟩],
        [⟨1, 1, 2, ea, ei⟩, ⟨2, 2, 3, ea, ei⟩, ⟨3, 3, 4, ea, ei⟩],
        [⟨1, .fixed⟩], [], []⟩ : SystemState).addSupportFixed 4 =
      .ok ⟨ea, ei, 0,
        [⟨1, ⟨0, 0⟩⟩, ⟨2, ⟨0, h⟩⟩, ⟨3, ⟨L, h⟩⟩, ⟨4, ⟨L, 0⟩⟩],
        [⟨1, 1, 2, ea, ei⟩, ⟨2, 2, 3, ea, ei⟩, ⟨3, 3, 4, ea, ei⟩],
        [⟨1, .fixed⟩, ⟨4, .fixed⟩], [], []⟩ := by
  simp [SystemState.addSupportFixed, SystemState.addSupport,
    SystemState.hasNode, SystemState.hasSupport]

/-- C10: `make_analysis` builds the same fixed topology for every
parameter set — exactly three elements forming the portal frame
(0,0)–(0,h), (0,h)–(l,h), (l,h)–(l,0) on four sequentially numbered
nodes, with fixed supports at nodes 1 and 4 and nothing else — and when
no Excel file is uploaded it uses the library-default EA/EI, so the tube
parameters (emodulus, moment of inertia, tube height/thickness) have no
effect on the constructed system. -/
theorem make_analysis_fixed_topology {F : Type} (p p2 : Params F)
    (hh : 0 < p.geometry.struct.height) (hl : 0 < p.geometry.struct.length) :
    (∃ s, make_analysis p = .ok s ∧
      s.elements.map (fun e => (e.id, e.startNode, e.endNode)) =
        [(1, 1, 2), (2, 2, 3), (3, 3, 4)] ∧
      s.nodes = [⟨1, ⟨0, 0⟩⟩, ⟨2, ⟨0, p.geometry.struct.height⟩⟩,
        ⟨3, ⟨p.geometry.struct.length, p.geometry.struct.height⟩⟩,
        ⟨4, ⟨p.geometry.struct.length, 0⟩⟩] ∧
      s.supports = [⟨1, .fixed⟩, ⟨4, .fixed⟩] ∧ s.loads = [] ∧
      s.hinges = [] ∧
      (p.geometry.tube.excel_file = none →
        s.EA = libraryDefaultEA ∧ s.EI = libraryDefaultEI)) ∧
    (p2.geometry.struct.height = p.geometry.struct.height →
      p2.geometry.struct.length = p.geometry.struct.length →
      p.geometry.tube.excel_file = none →
      p2.geometry.tube.excel_file = none →
      make_analysis p2 = make_analysis p) := by
  constructor
  · cases hex : p.geometry.tube.excel_file with
    | none =>
        have hma : make_analysis p = .ok
            ⟨libraryDefaultEA, libraryDefaultEI, 0,
              [⟨1, ⟨0, 0⟩⟩, ⟨2, ⟨0, p.geometry.struct.height⟩⟩,
               ⟨3, ⟨p.geometry.struct.length, p.geometry.struct.height⟩⟩,
               ⟨4, ⟨p.geometry.struct.length, 0⟩⟩],
              [⟨1, 1, 2, libraryDefaultEA, libraryDefaultEI⟩,
               ⟨2, 2, 3, libraryDefaultEA, libraryDefaultEI⟩,
               ⟨3, 3, 4, libraryDefaultEA, libraryDefaultEI⟩],
              [⟨1, .fixed⟩, ⟨4, .fixed⟩], [], []⟩ := by
          unfold make_analysis
          rw [hex]
          simp only [portal_step1 _ _ _ hh, portal_step2 _ _ _ _ hh hl,
            portal_step3 _ _ _ _ hh hl, portal_step4, portal_step5,
            Bind.bind, Except.bind, pure, Except.pure]
        exact ⟨_, hma, by simp, rfl, rfl, rfl, rfl, fun _ => ⟨rfl, rfl⟩⟩
    | some f =>
        have hma : make_analysis p = .ok
            ⟨p.geometry.tube.emodulus * p.geometry.tube.tube_height *
               p.geometry.tube.tube_thickness,
             p.geometry.tube.emodulus * p.geometry.tube.moment_of_inertia, 0,
              [⟨1, ⟨0, 0⟩⟩, ⟨2, ⟨0, p.geometry.struct.height⟩⟩,
               ⟨3, ⟨p.geometry.struct.length, p.geometry.struct.height⟩⟩,
               ⟨4, ⟨p.geometry.struct.length, 0⟩⟩],
              [⟨1, 1, 2, p.geometry.tube.emodulus * p.geometry.tube.tube_height *
                  p.geometry.tube.tube_thickness,
                 p.geometry.tube.emodulus * p.geometry.tube.moment_of_inertia⟩,
               ⟨2, 2, 3, p.geometry.tube.emodulus * p.geometry.tube.tube_height *
                  p.geometry.tube.tube_thickness,
                 p.geometry.tube.emodulus * p.geometry.tube.moment_of_inertia⟩,
               ⟨3, 3, 4, p.geometry.tube.emodulus * p.geometry.tube.tube_height *
                  p.geometry.tube.tube_thickness,
                 p.geometry.tube.emodulus * p.geometry.tube.moment_of_inertia⟩],
              [⟨1, .fixed⟩, ⟨4, .fixed⟩], [], []⟩ := by
          unfold make_analysis
          rw [hex]
          simp only [portal_step1 _ _ _ hh, portal_step2 _ _ _ _ hh hl,
            portal_step3 _ _ _ _ hh hl, portal_step4, portal_step5,
            Bind.bind, Except.bind, pure, Except.pure]
        exact ⟨_, hma, by simp, rfl, rfl, rfl, rfl,
          fun hc => Option.noConfusion hc⟩
  · intro h1 h2 hpn hp2n
    unfold make_analysis
    rw [h1, h2, hpn, hp2n]

lemma elemDof_zero (e : Element) : elemDof e 0 = 3 * (e.startNode - 1) := rfl

lemma elemDof_one (e : Element) : elemDof e 1 = 3 * (e.startNode - 1) + 1 := rfl

lemma elemDof_two (e : Element) : elemDof e 2 = 3 * (e.startNode - 1) + 2 := rfl

lemma elemDof_three (e : Element) : elemDof e 3 = 3 * (e.endNode - 1) := rfl

lemma elemDof_four (e : Element) : elemDof e 4 = 3 * (e.endNode - 1) + 1 := rfl

lemma elemDof_five (e : Element) : elemDof e 5 = 3 * (e.endNode - 1) + 2 := rfl

lemma cons_val_five {α : Type} {m : ℕ} (x : α) (u : Fin (m + 5) → α) :
    Matrix.vecCons x u 5 =
      Matrix.vecHead (Matrix.vecTail (Matrix.vecTail (Matrix.vecTail
        (Matrix.vecTail u)))) := rfl

lemma det_cast_eq {n m : ℕ} (h : n = m) (A : Matrix (Fin n) (Fin n) ℚ)
    (B : Matrix (Fin m) (Fin m) ℚ)
    (hAB : ∀ i j, A i j = B (Fin.cast h i) (Fin.cast h j)) : A.det = B.det := by
  subst h
  have hA : A = B := by
    ext i j
    exact hAB i j
  rw [hA]

set_option maxHeartbeats 2000000 in
lemma proppedK55 : proppedState.K lenOne 5 5 = 4 := by
  have h1 : proppedState.K lenOne 5 5 =
      proppedState.elemK lenOne ⟨1, 1, 2, 1, 1⟩ 5 5 := by
    simp only [SystemState.K, List.map_cons, List.map_nil, List.sum_cons,
      List.sum_nil, Fin.sum_univ_six, elemDof_zero, elemDof_one, elemDof_two,
      elemDof_three, elemDof_four, elemDof_five, proppedState]
    norm_num
  rw [h1]
  have hc : proppedState.elemCos lenOne ⟨1, 1, 2, 1, 1⟩ = 0 := by
    simp [SystemState.elemCos, SystemState.posOfId, proppedState, lenOne]
  have hs : proppedState.elemSin lenOne ⟨1, 1, 2, 1, 1⟩ = 1 := by
    simp [SystemState.elemSin, SystemState.posOfId, proppedState, lenOne]
  have hr1 : proppedState.releasedAt ⟨1, 1, 2, 1, 1⟩ 1 = false := by
    simp [SystemState.releasedAt, proppedState]
  have hr2 : proppedState.releasedAt ⟨1, 1, 2, 1, 1⟩ 2 = false := by
    simp [SystemState.releasedAt, proppedState]
  rw [SystemState.elemK, hc, hs, hr1, hr2]
  simp only [lenOne, kLocal, rotT]
  norm_num [Matrix.mul_apply, Matrix.transpose_apply, Fin.sum_univ_six,
    Matrix.cons_val_zero, Matrix.cons_val_one, Matrix.cons_val_two,
    Matrix.cons_val_three, Matrix.cons_val_four, cons_val_five,
    Matrix.cons_val_succ, Matrix.head_cons, Matrix.tail_cons,
    Matrix.head_fin_const, Matrix.vecHead, Matrix.vecTail, Function.comp,
    Matrix.of_apply]

set_option maxHeartbeats 2000000 in
lemma singularK55 : singularState.K lenOne 5 5 = 0 := by
  have h1 : singularState.K lenOne 5 5 =
      singularState.elemK lenOne ⟨1, 1, 2, 1, 0⟩ 5 5 := by
    simp only [SystemState.K, List.map_cons, List.map_nil, List.sum_cons,
      List.sum_nil, Fin.sum_univ_six, elemDof_zero, elemDof_one, elemDof_two,
      elemDof_three, elemDof_four, elemDof_five, singularState]
    norm_num
  rw [h1]
  have hc : singularState.elemCos lenOne ⟨1, 1, 2, 1, 0⟩ = 0 := by
    simp [SystemState.elemCos, SystemState.posOfId, singularState, lenOne]
  have hs : singularState.elemSin lenOne ⟨1, 1, 2, 1, 0⟩ = 1 := by
    simp [SystemState.elemSin, SystemState.posOfId, singularState, lenOne]
  have hr1 : singularState.releasedAt ⟨1, 1, 2, 1, 0⟩ 1 = false := by
    simp [SystemState.releasedAt, singularState]
  have hr2 : singularState.releasedAt ⟨1, 1, 2, 1, 0⟩ 2 = false := by
    simp [SystemState.releasedAt, singularState]
  rw [SystemState.elemK, hc, hs, hr1, hr2]
  simp only [lenOne, kLocal, rotT]
  norm_num [Matrix.mul_apply, Matrix.transpose_apply, Fin.sum_univ_six,
    Matrix.cons_val_zero, Matrix.cons_val_one, Matrix.cons_val_two,
    Matrix.cons_val_three, Matrix.cons_val_four, cons_val_five,
    Matrix.cons_val_succ, Matrix.head_cons, Matrix.tail_cons,
    Matrix.head_fin_const, Matrix.vecHead, Matrix.vecTail, Function.comp,
    Matrix.of_apply]

lemma propped_Kff_det : (proppedState.KffMat lenOne).det = 4 := by
  rw [det_cast_eq (show proppedState.freeDofs.length = 1 from rfl)
    (proppedState.KffMat lenOne) (!![4]) ?_]
  · simp [Matrix.det_fin_one]
  · intro i j
    have hl : proppedState.freeDofs.length = 1 := rfl
    have hi : (i : ℕ) < 1 := Nat.lt_of_lt_of_eq i.isLt hl
    have hj : (j : ℕ) < 1 := Nat.lt_of_lt_of_eq j.isLt hl
    have hfd : proppedState.freeDofs = [5] := by decide
    have hiv : (i : ℕ) = 0 := by omega
    have hjv : (j : ℕ) = 0 := by omega
    simp only [SystemState.KffMat, Matrix.of_apply, Matrix.cons_val_fin_one]
    rw [hiv, hjv, hfd]
    simpa [List.getD] using proppedK55

lemma singular_Kff_det : (singularState.KffMat lenOne).det = 0 := by
  rw [det_cast_eq (show singularState.freeDofs.length = 1 from rfl)
    (singularState.KffMat lenOne) (!![0]) ?_]
  · simp [Matrix.det_fin_one]
  · intro i j
    have hl : singularState.freeDofs.length = 1 := rfl
    have hi : (i : ℕ) < 1 := Nat.lt_of_lt_of_eq i.isLt hl
    have hj : (j : ℕ) < 1 := Nat.lt_of_lt_of_eq j.isLt hl
    have hfd : singularState.freeDofs = [5] := by decide
    have hiv : (i : ℕ) = 0 := by omega
    have hjv : (j : ℕ) = 0 := by omega
    simp only [SystemState.KffMat, Matrix.of_apply, Matrix.cons_val_fin_one]
    rw [hiv, hjv, hfd]
    simpa [List.getD] using singularK55

/-- Witness for C1: a structure whose single free DOF is a released
mechanism (zero bending stiffness behind the one free rotation) has
singular K_ff, and `solve` indeed fails with `SingularSystemError`. -/
theorem solve_fails_on_singular_Kff_witness :
    (singularState.KffMat lenOne).det = 0 ∧
      singularState.solve lenOne = .error .singularSystem :=
  ⟨singular_Kff_det, solve_fails_on_singular_Kff _ _ singular_Kff_det⟩

/-- Witness for C3: the concrete propped cantilever solves successfully,
the state comes back unchanged, and the repeated call returns the
identical solution. -/
theorem solve_deterministic_witness :
    ∃ sol s1, proppedState.solveCall lenOne = .ok (sol, s1) ∧
      s1 = proppedState ∧ s1.solveCall lenOne = .ok (sol, s1) := by
  have hdet : ¬ (proppedState.KffMat lenOne).det = 0 := by
    rw [propped_Kff_det]
    norm_num
  obtain ⟨sol, hs⟩ : ∃ sol, proppedState.solve lenOne = .ok sol := by
    unfold SystemState.solve
    rw [if_neg hdet]
    exact ⟨_, rfl⟩
  have hsc : proppedState.solveCall lenOne = .ok (sol, proppedState) := by
    unfold SystemState.solveCall
    rw [hs]
    rfl
  obtain ⟨h1, h2⟩ := solve_deterministic _ _ _ _ hsc
  exact ⟨sol, proppedState, hsc, h1, h2⟩

/-- Witness for C4: a concrete two-element build (the second element
reusing the first one's end node) yields sequential element ids 1, 2 and
sequential node ids 1, 2, 3, and the matching endpoint resolves to the
existing node without creating a new one. -/
theorem addElement_sequential_ids_witness :
    ((SystemState.init 1 1).buildElements [(⟨0, 0⟩, ⟨0, 1⟩), (⟨0, 1⟩, ⟨1, 1⟩)] =
      .ok ⟨1, 1, 0, [⟨1, ⟨0, 0⟩⟩, ⟨2, ⟨0, 1⟩⟩, ⟨3, ⟨1, 1⟩⟩],
        [⟨1, 1, 2, 1, 1⟩, ⟨2, 2, 3, 1, 1⟩], [], [], []⟩) ∧
    (⟨1, 1, 0, [⟨1, ⟨0, 0⟩⟩, ⟨2, ⟨0, 1⟩⟩, ⟨3, ⟨1, 1⟩⟩],
        [⟨1, 1, 2, 1, 1⟩, ⟨2, 2, 3, 1, 1⟩], [], [], []⟩ :
      SystemState).elements.map Element.id = List.range' 1 2 ∧
    (⟨1, 1, 0, [⟨1, ⟨0, 0⟩⟩, ⟨2, ⟨0, 1⟩⟩, ⟨3, ⟨1, 1⟩⟩],
        [⟨1, 1, 2, 1, 1⟩, ⟨2, 2, 3, 1, 1⟩], [], [], []⟩ :
      SystemState).findNode ⟨0, 1⟩ = some ⟨2, ⟨0, 1⟩⟩ ∧
    (⟨1, 1, 0, [⟨1, ⟨0, 0⟩⟩, ⟨2, ⟨0, 1⟩⟩, ⟨3, ⟨1, 1⟩⟩],
        [⟨1, 1, 2, 1, 1⟩, ⟨2, 2, 3, 1, 1⟩], [], [], []⟩ :
      SystemState).resolveNode ⟨0, 1⟩ =
      (2, ⟨1, 1, 0, [⟨1, ⟨0, 0⟩⟩, ⟨2, ⟨0, 1⟩⟩, ⟨3, ⟨1, 1⟩⟩],
        [⟨1, 1, 2, 1, 1⟩, ⟨2, 2, 3, 1, 1⟩], [], [], []⟩) := by
  have h01 : (⟨0, 0⟩ : Point) ≠ ⟨0, 1⟩ := by
    intro he
    have hy := congrArg Point.y he
    norm_num at hy
  have hb : (SystemState.init 1 1).buildElements
      [(⟨0, 0⟩, ⟨0, 1⟩), (⟨0, 1⟩, ⟨1, 1⟩)] =
      .ok ⟨1, 1, 0, [⟨1, ⟨0, 0⟩⟩, ⟨2, ⟨0, 1⟩⟩, ⟨3, ⟨1, 1⟩⟩],
        [⟨1, 1, 2, 1, 1⟩, ⟨2, 2, 3, 1, 1⟩], [], [], []⟩ := by
    simp only [SystemState.buildElements, portal_step1 1 1 1 one_pos,
      portal_step2 1 1 1 1 one_pos one_pos, Bind.bind, Except.bind]
  have hfind : (⟨1, 1, 0, [⟨1, ⟨0, 0⟩⟩, ⟨2, ⟨0, 1⟩⟩, ⟨3, ⟨1, 1⟩⟩],
      [⟨1, 1, 2, 1, 1⟩, ⟨2, 2, 3, 1, 1⟩], [], [], []⟩ :
      SystemState).findNode ⟨0, 1⟩ = some ⟨2, ⟨0, 1⟩⟩ := by
    simp [SystemState.findNode, List.find?, near_zero_false h01, near_zero_self]
  refine ⟨hb, ?_, hfind, ?_⟩
  · exact (addElement_sequential_ids_and_node_reuse.1 1 1 _ _ hb).1
  · exact addElement_sequential_ids_and_node_reuse.2.1 _ _ _ hfind

/-- Witness for C6: adding a roll support to the cantilever's already
fixed base node fails with `DuplicateSupportError`, and a concrete build
run ends with pairwise-distinct supported nodes. -/
theorem second_support_duplicate_error_witness :
    cantileverState.addSupport 1 .roll = .error .duplicateSupport ∧
    ((⟨1, 1, 0, [⟨1, ⟨0, 0⟩⟩, ⟨2, ⟨0, 1⟩⟩], [⟨1, 1, 2, 1, 1⟩],
        [⟨1, .fixed⟩], [], []⟩ :
      SystemState).supports.map Support.node).Nodup := by
  constructor
  · exact second_support_duplicate_error.1 cantileverState 1 .roll
      (by decide) (by decide)
  · have hrun : (SystemState.init 1 1).runOps
        [.addElement ⟨0, 0⟩ ⟨0, 1⟩, .supportFixed 1] = .ok
        ⟨1, 1, 0, [⟨1, ⟨0, 0⟩⟩, ⟨2, ⟨0, 1⟩⟩], [⟨1, 1, 2, 1, 1⟩],
         [⟨1, .fixed⟩], [], []⟩ := by
      simp only [SystemState.runOps, SystemState.applyOp,
        portal_step1 1 1 1 one_pos, Bind.bind, Except.bind]
      simp [SystemState.addSupportFixed, SystemState.addSupport,
        SystemState.hasNode, SystemState.hasSupport]
    exact second_support_duplicate_error.2 _ _ _ (by decide) hrun

/-- Witness for C7: dangling ids make each boundary/load call fail with
`UnknownReferenceError`, and a successful support call implies the node
existed. -/
theorem dangling_reference_error_witness :
    freeElementState.addSupportFixed 5 = .error .unknownReference ∧
    freeElementState.addSupportRoll 6 = .error .unknownReference ∧
    freeElementState.addInternalHinge 7 = .error .unknownReference ∧
    freeElementState.addPointLoad 9 1 0 0 = .error .unknownReference ∧
    freeElementState.addDistributedLoad 7 1 .elementDir =
      .error .unknownReference ∧
    freeElementState.hasNode 1 = true := by
  refine ⟨dangling_reference_error.1 _ 5 (by decide),
    dangling_reference_error.2.2.1 _ 6 (by decide),
    dangling_reference_error.2.2.2.2.1 _ 7 (by decide),
    dangling_reference_error.2.2.2.2.2.2.1 _ 9 1 0 0 (by decide),
    dangling_reference_error.2.2.2.2.2.2.2.2.1 _ 7 1 .elementDir (by decide),
    dangling_reference_error.2.1 freeElementState
      ⟨1, 1, 0, [⟨1, ⟨0, 0⟩⟩, ⟨2, ⟨0, 1⟩⟩], [⟨1, 1, 2, 1, 1⟩],
        [⟨1, .fixed⟩], [], []⟩ 1 rfl⟩

/-- Witness for C8: two concrete point loads at node 1 produce the same
load vector entry as their componentwise sum. -/
theorem point_loads_accumulate_witness :
    freeElementState.addPointLoad 1 1 2 3 = .ok
      ⟨1, 1, 0, [⟨1, ⟨0, 0⟩⟩, ⟨2, ⟨0, 1⟩⟩], [⟨1, 1, 2, 1, 1⟩], [],
        [.point 1 1 2 3], []⟩ ∧
    (⟨1, 1, 0, [⟨1, ⟨0, 0⟩⟩, ⟨2, ⟨0, 1⟩⟩], [⟨1, 1, 2, 1, 1⟩], [],
        [.point 1 1 2 3], []⟩ : SystemState).addPointLoad 1 4 5 6 = .ok
      ⟨1, 1, 0, [⟨1, ⟨0, 0⟩⟩, ⟨2, ⟨0, 1⟩⟩], [⟨1, 1, 2, 1, 1⟩], [],
        [.point 1 1 2 3, .point 1 4 5 6], []⟩ ∧
    freeElementState.addPointLoad 1 (1 + 4) (2 + 5) (3 + 6) = .ok
      ⟨1, 1, 0, [⟨1, ⟨0, 0⟩⟩, ⟨2, ⟨0, 1⟩⟩], [⟨1, 1, 2, 1, 1⟩], [],
        [.point 1 (1 + 4) (2 + 5) (3 + 6)], []⟩ ∧
    (⟨1, 1, 0, [⟨1, ⟨0, 0⟩⟩, ⟨2, ⟨0, 1⟩⟩], [⟨1, 1, 2, 1, 1⟩], [],
        [.point 1 1 2 3, .point 1 4 5 6], []⟩ : SystemState).P lenOne 0 =
    (⟨1, 1, 0, [⟨1, ⟨0, 0⟩⟩, ⟨2, ⟨0, 1⟩⟩], [⟨1, 1, 2, 1, 1⟩], [],
        [.point 1 (1 + 4) (2 + 5) (3 + 6)], []⟩ : SystemState).P lenOne 0 := by
  refine ⟨rfl, rfl, rfl, ?_⟩
  exact point_loads_accumulate freeElementState lenOne 1 1 2 3 4 5 6 _ _ _
    rfl rfl rfl 0

/-- Witness for C10: at height = length = 500 the portal frame is built
with the fixed topology, and changing every tube parameter (with no
Excel file uploaded) leaves `make_analysis` unchanged. -/
theorem make_analysis_fixed_topology_witness :
    (∃ s, make_analysis (F := Unit)
        ⟨⟨⟨500, 500⟩, ⟨none, 20, 20, 5, 70000, 0⟩⟩, ⟨5, 2⟩⟩ = .ok s ∧
      s.elements.map (fun e => (e.id, e.startNode, e.endNode)) =
        [(1, 1, 2), (2, 2, 3), (3, 3, 4)] ∧
      s.nodes = [⟨1, ⟨0, 0⟩⟩, ⟨2, ⟨0, 500⟩⟩, ⟨3, ⟨500, 500⟩⟩,
        ⟨4, ⟨500, 0⟩⟩] ∧
      s.supports = [⟨1, .fixed⟩, ⟨4, .fixed⟩] ∧ s.loads = [] ∧
      s.hinges = [] ∧ s.EA = libraryDefaultEA ∧ s.EI = libraryDefaultEI) ∧
    make_analysis (F := Unit)
        ⟨⟨⟨500, 500⟩, ⟨none, 30, 40, 9, 210000, 123⟩⟩, ⟨9, 1⟩⟩ =
      make_analysis (F := Unit)
        ⟨⟨⟨500, 500⟩, ⟨none, 20, 20, 5, 70000, 0⟩⟩, ⟨5, 2⟩⟩ := by
  have h := make_analysis_fixed_topology (F := Unit)
    ⟨⟨⟨500, 500⟩, ⟨none, 20, 20, 5, 70000, 0⟩⟩, ⟨5, 2⟩⟩
    ⟨⟨⟨500, 500⟩, ⟨none, 30, 40, 9, 210000, 123⟩⟩, ⟨9, 1⟩⟩
    (by norm_num) (by norm_num)
  obtain ⟨⟨s, hs, h1, h2, h3, h4, h5, h6⟩, hind⟩ := h
  exact ⟨⟨s, hs, h1, h2, h3, h4, h5, (h6 rfl).1, (h6 rfl).2⟩,
    hind rfl rfl rfl rfl⟩

/-- C5: the assembler converts a uniform distributed load of intensity q
on the element of length L = len eid into statically-equivalent nodal
fixed-end forces — local end shears qL/2 and end moments ±qL²/12,
rotated back to global coordinates and scattered into the element's six
DOFs — added into the global load vector alongside directly-added point
loads (which enter the node's three DOF entries directly). -/
theorem distributed_load_fixed_end_forces (s : SystemState) (len : ℕ → ℚ)
    (eid : ℕ) (q : ℚ) (dir : LoadDirection) (e : Element)
    (he : s.findElement eid = some e) (a : ℕ) (fx fy m : ℚ) (i : ℕ) :
    ({ s with loads := s.loads ++ [.distributed eid q dir] } :
        SystemState).P len i =
      s.P len i +
        (∑ p : Fin 6, if elemDof e p = i then
          (Matrix.transpose (rotT (s.elemCos len e) (s.elemSin len e))).mulVec
            ![0, q * len eid / 2, q * len eid ^ 2 / 12, 0,
              q * len eid / 2, -(q * len eid ^ 2 / 12)] p
          else 0) ∧
    ({ s with loads := s.loads ++ [.point a fx fy m] } : SystemState).P len i =
      s.P len i + ((if i = dofOf a 0 then fx else 0) +
        (if i = dofOf a 1 then fy else 0) + (if i = dofOf a 2 then m else 0)) := by
  constructor
  · rw [P_update_loads]
    simp only [List.map_append, List.sum_append, List.map_cons, List.map_nil,
      List.sum_cons, List.sum_nil, add_zero]
    rw [SystemState.P]
    congr 1
    simp only [SystemState.loadContrib, he, fefLocal]
  · rw [P_update_loads]
    simp only [List.map_append, List.sum_append, List.map_cons, List.map_nil,
      List.sum_cons, List.sum_nil, add_zero]
    rw [SystemState.P]
    congr 1

/-- Witness for C5: at the concrete propped cantilever, a distributed
load on element 1 and a point load at node 2 enter the load vector via
the fixed-end-force and direct formulas respectively. -/
theorem distributed_load_fixed_end_forces_witness :
    proppedState.findElement 1 = some ⟨1, 1, 2, 1, 1⟩ ∧
    (({ proppedState with loads := proppedState.loads ++
          [.distributed 1 (-2) .elementDir] } : SystemState).P lenOne 4 =
      proppedState.P lenOne 4 +
        (∑ p : Fin 6, if elemDof (⟨1, 1, 2, 1, 1⟩ : Element) p = 4 then
          (Matrix.transpose (rotT
              (proppedState.elemCos lenOne ⟨1, 1, 2, 1, 1⟩)
              (proppedState.elemSin lenOne ⟨1, 1, 2, 1, 1⟩))).mulVec
            ![0, (-2) * lenOne 1 / 2, (-2) * lenOne 1 ^ 2 / 12, 0,
              (-2) * lenOne 1 / 2, -((-2) * lenOne 1 ^ 2 / 12)] p
          else 0) ∧
     ({ proppedState with loads := proppedState.loads ++
          [.point 2 7 8 9] } : SystemState).P lenOne 4 =
      proppedState.P lenOne 4 + ((if 4 = dofOf 2 0 then (7 : ℚ) else 0) +
        (if 4 = dofOf 2 1 then 8 else 0) + (if 4 = dofOf 2 2 then 9 else 0))) :=
  ⟨rfl, distributed_load_fixed_end_forces proppedState lenOne 1 (-2)
    .elementDir ⟨1, 1, 2, 1, 1⟩ rfl 2 7 8 9 4⟩

lemma sum_map_get {α : Type} (l : List α) (f : α → ℚ) :
    (l.map f).sum = ∑ k : Fin l.length, f (l.get k) := by
  conv_lhs => rw [← List.ofFn_get l]
  rw [List.map_ofFn, List.sum_ofFn]
  rfl

set_option maxRecDepth 4000 in
lemma kLocal_transpose (ea ei L : ℚ) (hs he : Bool) :
    Matrix.transpose (kLocal ea ei L hs he) = kLocal ea ei L hs he := by
  cases hs <;> cases he <;>
    (ext i j; fin_cases i <;> fin_cases j <;> rfl)

lemma kLocal_mulVec_trans (ea ei L a b : ℚ) (hs he : Bool) :
    (kLocal ea ei L hs he).mulVec ![a, b, 0, a, b, 0] = 0 := by
  cases hs <;> cases he <;>
    (funext i
     fin_cases i <;>
       simp [kLocal, Matrix.mulVec, Matrix.dotProduct, Fin.sum_univ_six,
         Matrix.cons_val_zero, Matrix.cons_val_one, Matrix.cons_val_two,
         Matrix.cons_val_three, Matrix.cons_val_four, cons_val_five,
         Matrix.head_cons, Matrix.tail_cons, Matrix.head_fin_const,
         Matrix.vecHead, Matrix.vecTail, Function.comp])

lemma kLocal_mulVec_rot (ea ei L : ℚ) (hL : L ≠ 0) (a b : ℚ) (hs he : Bool) :
    (kLocal ea ei L hs he).mulVec ![a, b, 1, a, b + L, 1] = 0 := by
  cases hs <;> cases he <;>
    (funext i
     fin_cases i <;>
       simp [kLocal, Matrix.mulVec, Matrix.dotProduct, Fin.sum_univ_six,
         Matrix.cons_val_zero, Matrix.cons_val_one, Matrix.cons_val_two,
         Matrix.cons_val_three, Matrix.cons_val_four, cons_val_five,
         Matrix.head_cons, Matrix.tail_cons, Matrix.head_fin_const,
         Matrix.vecHead, Matrix.vecTail, Function.comp] <;>
       (field_simp
        ring))

lemma rotT_mulVec (c sn : ℚ) (v : Fin 6 → ℚ) :
    (rotT c sn).mulVec v =
      ![c * v 0 + sn * v 1, -sn * v 0 + c * v 1, v 2,
        c * v 3 + sn * v 4, -sn * v 3 + c * v 4, v 5] := by
  funext i
  fin_cases i <;>
    simp [rotT, Matrix.mulVec, Matrix.dotProduct, Fin.sum_univ_six,
      Matrix.cons_val_zero, Matrix.cons_val_one, Matrix.cons_val_two,
         Matrix.cons_val_three, Matrix.cons_val_four, cons_val_five,
         Matrix.head_cons, Matrix.tail_cons, Matrix.head_fin_const,
         Matrix.vecHead, Matrix.vecTail, Function.comp]

lemma vecMul_TkT (c sn : ℚ) (k : Matrix (Fin 6) (Fin 6) ℚ)
    (hk : Matrix.transpose k = k) (g : Fin 6 → ℚ)
    (h0 : k.mulVec ((rotT c sn).mulVec g) = 0) :
    Matrix.vecMul g (Matrix.transpose (rotT c sn) * k * rotT c sn) = 0 := by
  rw [← Matrix.vecMul_vecMul, ← Matrix.vecMul_vecMul]
  rw [Matrix.vecMul_transpose]
  have h2 : Matrix.vecMul ((rotT c sn).mulVec g) k =
      k.mulVec ((rotT c sn).mulVec g) := by
    conv_lhs => rw [← hk]
    exact Matrix.vecMul_transpose k _
  rw [h2, h0, Matrix.zero_vecMul]

lemma kLocal_mulVec_trans_of (ea ei L : ℚ) (hs he : Bool) (v : Fin 6 → ℚ)
    (a b : ℚ) (hv : v = ![a, b, 0, a, b, 0]) :
    (kLocal ea ei L hs he).mulVec v = 0 := by
  rw [hv]
  exact kLocal_mulVec_trans ea ei L a b hs he

lemma kLocal_mulVec_rot_of (ea ei L : ℚ) (hL : L ≠ 0) (hs he : Bool)
    (v : Fin 6 → ℚ) (a b : ℚ) (hv : v = ![a, b, 1, a, b + L, 1]) :
    (kLocal ea ei L hs he).mulVec v = 0 := by
  rw [hv]
  exact kLocal_mulVec_rot ea ei L hL a b hs he

lemma elemK_vecMul_zero (s : SystemState) (len : ℕ → ℚ) (e : Element)
    (g : Fin 6 → ℚ)
    (h0 : (kLocal e.EA e.EI (len e.id) (s.releasedAt e e.startNode)
        (s.releasedAt e e.endNode)).mulVec
      ((rotT (s.elemCos len e) (s.elemSin len e)).mulVec g) = 0) :
    Matrix.vecMul g (s.elemK len e) = 0 := by
  rw [SystemState.elemK]
  exact vecMul_TkT _ _ _ (kLocal_transpose _ _ _ _ _) g h0

lemma elemK_null_X (s : SystemState) (len : ℕ → ℚ) (e : Element) :
    Matrix.vecMul ![(1 : ℚ), 0, 0, 1, 0, 0] (s.elemK len e) = 0 := by
  apply elemK_vecMul_zero
  rw [rotT_mulVec]
  apply kLocal_mulVec_trans_of _ _ _ _ _ _ (s.elemCos len e)
    (-(s.elemSin len e))
  funext i
  fin_cases i <;>
    simp [Matrix.cons_val_zero, Matrix.cons_val_one, Matrix.cons_val_two,
      Matrix.cons_val_three, Matrix.cons_val_four, cons_val_five,
      Matrix.head_cons, Matrix.tail_cons, Matrix.head_fin_const,
      Matrix.vecHead, Matrix.vecTail, Function.comp]

lemma elemK_null_Y (s : SystemState) (len : ℕ → ℚ) (e : Element) :
    Matrix.vecMul ![(0 : ℚ), 1, 0, 0, 1, 0] (s.elemK len e) = 0 := by
  apply elemK_vecMul_zero
  rw [rotT_mulVec]
  apply kLocal_mulVec_trans_of _ _ _ _ _ _ (s.elemSin len e) (s.elemCos len e)
  funext i
  fin_cases i <;>
    simp [Matrix.cons_val_zero, Matrix.cons_val_one, Matrix.cons_val_two,
      Matrix.cons_val_three, Matrix.cons_val_four, cons_val_five,
      Matrix.head_cons, Matrix.tail_cons, Matrix.head_fin_const,
      Matrix.vecHead, Matrix.vecTail, Function.comp]

lemma elemK_null_M (s : SystemState) (len : ℕ → ℚ) (e : Element)
    (hL : 0 < len e.id)
    (hgeom : len e.id ^ 2 =
      ((s.posOfId e.endNode).x - (s.posOfId e.startNode).x) ^ 2 +
        ((s.posOfId e.endNode).y - (s.posOfId e.startNode).y) ^ 2)
    (px py : ℚ) :
    Matrix.vecMul
      ![-((s.posOfId e.startNode).y - py), (s.posOfId e.startNode).x - px, 1,
        -((s.posOfId e.endNode).y - py), (s.posOfId e.endNode).x - px, 1]
      (s.elemK len e) = 0 := by
  apply elemK_vecMul_zero
  rw [rotT_mulVec]
  apply kLocal_mulVec_rot_of _ _ _ (ne_of_gt hL) _ _ _
    (s.elemCos len e * -((s.posOfId e.startNode).y - py) +
      s.elemSin len e * ((s.posOfId e.startNode).x - px))
    (-(s.elemSin len e) * -((s.posOfId e.startNode).y - py) +
      s.elemCos len e * ((s.posOfId e.startNode).x - px))
  have hL0 : len e.id ≠ 0 := ne_of_gt hL
  funext i
  fin_cases i <;>
    first
    | (simp [Matrix.cons_val_zero, Matrix.cons_val_one, Matrix.cons_val_two,
         Matrix.cons_val_three, Matrix.cons_val_four, cons_val_five,
         Matrix.head_cons, Matrix.tail_cons, Matrix.head_fin_const,
         Matrix.vecHead, Matrix.vecTail, Function.comp]
       done)
    | (simp only [Matrix.cons_val_zero, Matrix.cons_val_one,
         Matrix.cons_val_two, Matrix.cons_val_three, Matrix.cons_val_four,
         cons_val_five, Matrix.head_cons, Matrix.tail_cons,
         Matrix.head_fin_const, Matrix.vecHead, Matrix.vecTail,
         Function.comp, Fin.isValue, SystemState.elemCos, SystemState.elemSin]
       field_simp
       first
       | ring1
       | linear_combination hgeom
       | linear_combination -hgeom)

lemma rigidX_gather (e : Element) (p : Fin 6) :
    rigidX (elemDof e p) = ![(1 : ℚ), 0, 0, 1, 0, 0] p := by
  fin_cases p <;> simp [rigidX, elemDof, dofOf, Nat.mul_add_mod,
    Matrix.cons_val_zero, Matrix.cons_val_one, Matrix.cons_val_two,
    Matrix.cons_val_three, Matrix.cons_val_four, cons_val_five,
    Matrix.head_cons, Matrix.tail_cons, Matrix.head_fin_const,
    Matrix.vecHead, Matrix.vecTail, Function.comp]

lemma rigidY_gather (e : Element) (p : Fin 6) :
    rigidY (elemDof e p) = ![(0 : ℚ), 1, 0, 0, 1, 0] p := by
  fin_cases p <;> simp [rigidY, elemDof, dofOf, Nat.mul_add_mod,
    Matrix.cons_val_zero, Matrix.cons_val_one, Matrix.cons_val_two,
    Matrix.cons_val_three, Matrix.cons_val_four, cons_val_five,
    Matrix.head_cons, Matrix.tail_cons, Matrix.head_fin_const,
    Matrix.vecHead, Matrix.vecTail, Function.comp]

lemma dof_decode (a c : ℕ) (ha : 1 ≤ a) (hc : c < 3) :
    (3 * (a - 1) + c) % 3 = c ∧ (3 * (a - 1) + c) / 3 + 1 = a := by omega

lemma rigidM_gather (s : SystemState) (px py : ℚ) {e : Element}
    (h1 : 1 ≤ e.startNode) (h2 : 1 ≤ e.endNode) (p : Fin 6) :
    s.rigidM px py (elemDof e p) =
      ![-((s.posOfId e.startNode).y - py), (s.posOfId e.startNode).x - px, 1,
        -((s.posOfId e.endNode).y - py), (s.posOfId e.endNode).x - px, 1] p := by
  fin_cases p <;>
    simp only [elemDof, dofOf, SystemState.rigidM, Matrix.cons_val_zero,
      Matrix.cons_val_one, Matrix.cons_val_two, Matrix.cons_val_three,
      Matrix.cons_val_four, cons_val_five, Matrix.head_cons, Matrix.tail_cons,
      Matrix.head_fin_const, Matrix.vecHead, Matrix.vecTail, Function.comp,
      Fin.isValue, Fin.val_zero, Fin.val_one, Fin.val_two] <;>
    norm_num <;>
    first
    | rfl
    | rw [Nat.sub_add_cancel h1]
    | rw [Nat.sub_add_cancel h2]
    | (rw [(dof_decode e.startNode 1 h1 (by norm_num)).1,
           (dof_decode e.startNode 1 h1 (by norm_num)).2]
       norm_num)
    | (rw [(dof_decode e.startNode 2 h1 (by norm_num)).1]
       norm_num)
    | (rw [(dof_decode e.endNode 1 h2 (by norm_num)).1,
           (dof_decode e.endNode 1 h2 (by norm_num)).2]
       norm_num)
    | (rw [(dof_decode e.endNode 2 h2 (by norm_num)).1]
       norm_num)

lemma elemDof_lt {s : SystemState} (hb : s.boundedElems) {e : Element}
    (he : e ∈ s.elements) (p : Fin 6) : elemDof e p < s.numDofs := by
  obtain ⟨h1, h2, h3, h4⟩ := hb e he
  fin_cases p <;> simp [elemDof, dofOf, SystemState.numDofs] <;> omega

lemma mem_freeDofs {s : SystemState} {i : ℕ} :
    i ∈ s.freeDofs ↔ i < s.numDofs ∧ s.isRestrained i = false := by
  simp [SystemState.freeDofs, List.mem_filter, List.mem_range]

lemma freeDofs_nodup (s : SystemState) : s.freeDofs.Nodup :=
  (List.nodup_range _).filter _

lemma K_left_null (s : SystemState) (len : ℕ → ℚ) (g : ℕ → ℚ)
    (hb : s.boundedElems)
    (hnull : ∀ e ∈ s.elements,
      Matrix.vecMul (fun p => g (elemDof e p)) (s.elemK len e) = 0)
    (j : ℕ) :
    ∑ i ∈ Finset.range s.numDofs, g i * s.K len i j = 0 := by
  have hK : ∀ i, s.K len i j =
      ∑ k : Fin s.elements.length, ∑ p : Fin 6, ∑ q : Fin 6,
        if elemDof (s.elements.get k) p = i ∧ elemDof (s.elements.get k) q = j
        then s.elemK len (s.elements.get k) p q else 0 := by
    intro i
    rw [SystemState.K, sum_map_get]
  calc ∑ i ∈ Finset.range s.numDofs, g i * s.K len i j
      = ∑ k : Fin s.elements.length, ∑ p : Fin 6, ∑ q : Fin 6,
          ∑ i ∈ Finset.range s.numDofs,
            if elemDof (s.elements.get k) p = i
            then (if elemDof (s.elements.get k) q = j
                  then g i * s.elemK len (s.elements.get k) p q else 0)
            else 0 := by
        simp only [hK, Finset.mul_sum]
        rw [Finset.sum_comm]
        refine Finset.sum_congr rfl fun k _ => ?_
        rw [Finset.sum_comm]
        refine Finset.sum_congr rfl fun p _ => ?_
        rw [Finset.sum_comm]
        refine Finset.sum_congr rfl fun q _ => ?_
        refine Finset.sum_congr rfl fun i _ => ?_
        rw [ite_and]
        split_ifs <;> ring
    _ = ∑ k : Fin s.elements.length, ∑ p : Fin 6, ∑ q : Fin 6,
          (if elemDof (s.elements.get k) q = j
           then g (elemDof (s.elements.get k) p) *
             s.elemK len (s.elements.get k) p q else 0) := by
        refine Finset.sum_congr rfl fun k _ => Finset.sum_congr rfl fun p _ =>
          Finset.sum_congr rfl fun q _ => ?_
        rw [Finset.sum_ite_eq, if_pos (Finset.mem_range.mpr
          (elemDof_lt hb (List.get_mem _ _ _) p))]
    _ = 0 := by
        refine Finset.sum_eq_zero fun k _ => ?_
        rw [Finset.sum_comm]
        refine Finset.sum_eq_zero fun q _ => ?_
        by_cases hB : elemDof (s.elements.get k) q = j
        · simp only [if_pos hB]
          have h0 := congrFun (hnull (s.elements.get k)
            (List.get_mem _ _ _)) q
          simpa [Matrix.vecMul, Matrix.dotProduct] using h0
        · simp only [if_neg hB, Finset.sum_const_zero]

lemma solve_ok_eq {s : SystemState} {len : ℕ → ℚ} {sol : Solution}
    (h : s.solve len = .ok sol) :
    (s.KffMat len).det ≠ 0 ∧ sol.u = s.uSol len ∧ sol.R = s.RSol len := by
  by_cases hd : (s.KffMat len).det = 0
  · rw [SystemState.solve, if_pos hd] at h
    exact absurd h (by simp)
  · rw [SystemState.solve] at h
    simp only [if_neg hd, Except.ok.injEq] at h
    subst h
    exact ⟨hd, rfl, rfl⟩

lemma uSol_mem {s : SystemState} {len : ℕ → ℚ} {i : ℕ} (hm : i ∈ s.freeDofs) :
    s.uSol len i =
      (((s.KffMat len).det⁻¹ • (s.KffMat len).adjugate).mulVec (s.Ff len))
        ⟨s.freeDofs.indexOf i, List.indexOf_lt_length.mpr hm⟩ := dif_pos hm

lemma uSol_not_mem {s : SystemState} {len : ℕ → ℚ} {i : ℕ}
    (hm : i ∉ s.freeDofs) : s.uSol len i = 0 := dif_neg hm

lemma Kff_mulVec_uf (s : SystemState) (len : ℕ → ℚ)
    (hd : (s.KffMat len).det ≠ 0) :
    (s.KffMat len).mulVec
      (((s.KffMat len).det⁻¹ • (s.KffMat len).adjugate).mulVec (s.Ff len)) =
      s.Ff len := by
  rw [Matrix.mulVec_mulVec, Matrix.mul_smul, Matrix.mul_adjugate, smul_smul,
    inv_mul_cancel₀ hd, one_smul, Matrix.one_mulVec]

lemma freeRow (s : SystemState) (len : ℕ → ℚ)
    (hd : (s.KffMat len).det ≠ 0) {i : ℕ} (hi : i ∈ s.freeDofs) :
    ∑ j ∈ Finset.range s.numDofs, s.K len i j * s.uSol len j = s.P len i := by
  have hfilter : (Finset.range s.numDofs).filter (fun j => j ∈ s.freeDofs) =
      s.freeDofs.toFinset := by
    ext j
    simp only [Finset.mem_filter, Finset.mem_range, List.mem_toFinset]
    exact ⟨fun hh => hh.2, fun hh => ⟨(mem_freeDofs.mp hh).1, hh⟩⟩
  have h2 : ∑ j ∈ (Finset.range s.numDofs).filter
      (fun j => ¬ j ∈ s.freeDofs), s.K len i j * s.uSol len j = 0 :=
    Finset.sum_eq_zero fun j hj => by
      rw [uSol_not_mem (Finset.mem_filter.mp hj).2, mul_zero]
  rw [← Finset.sum_filter_add_sum_filter_not (Finset.range s.numDofs)
    (fun j => j ∈ s.freeDofs) (fun j => s.K len i j * s.uSol len j),
    h2, add_zero, hfilter,
    List.sum_toFinset _ (freeDofs_nodup s), sum_map_get]
  have hstep : ∀ k : Fin s.freeDofs.length,
      s.K len i (s.freeDofs.get k) * s.uSol len (s.freeDofs.get k) =
      s.KffMat len ⟨s.freeDofs.indexOf i, List.indexOf_lt_length.mpr hi⟩ k *
        (((s.KffMat len).det⁻¹ • (s.KffMat len).adjugate).mulVec
          (s.Ff len)) k := by
    intro k
    have hu : s.uSol len (s.freeDofs.get k) =
        (((s.KffMat len).det⁻¹ • (s.KffMat len).adjugate).mulVec
          (s.Ff len)) k := by
      rw [uSol_mem (List.get_mem _ _ _)]
      congr 1
      exact Fin.ext (List.get_indexOf (freeDofs_nodup s) k)
    have hK : s.K len i (s.freeDofs.get k) =
        s.KffMat len ⟨s.freeDofs.indexOf i, List.indexOf_lt_length.mpr hi⟩
          k := by
      rw [SystemState.KffMat, Matrix.of_apply,
        List.getD_eq_get _ _ (List.indexOf_lt_length.mpr hi),
        List.getD_eq_get _ _ k.isLt, List.indexOf_get]
    rw [hu, hK]
  rw [Finset.sum_congr rfl (fun k _ => hstep k)]
  have hm := congrFun (Kff_mulVec_uf s len hd)
    ⟨s.freeDofs.indexOf i, List.indexOf_lt_length.mpr hi⟩
  rw [Matrix.mulVec, Matrix.dotProduct] at hm
  rw [hm, SystemState.Ff,
    List.getD_eq_get _ _ (List.indexOf_lt_length.mpr hi), List.indexOf_get]

lemma solve_global_balance {s : SystemState} {len : ℕ → ℚ} {sol : Solution}
    (h : s.solve len = .ok sol) (g : ℕ → ℚ)
    (hb : s.boundedElems)
    (hnull : ∀ e ∈ s.elements,
      Matrix.vecMul (fun p => g (elemDof e p)) (s.elemK len e) = 0) :
    ∑ i ∈ Finset.range s.numDofs, g i * (s.P len i + sol.R i) = 0 := by
  obtain ⟨hd, hu, hR⟩ := solve_ok_eq h
  have hrow : ∀ i ∈ Finset.range s.numDofs,
      g i * (s.P len i + sol.R i) =
      g i * ∑ j ∈ Finset.range s.numDofs, s.K len i j * s.uSol len j := by
    intro i hi
    rw [hR, SystemState.RSol]
    by_cases hr : s.isRestrained i = true
    · rw [if_pos ⟨hr, Finset.mem_range.mp hi⟩]
      ring
    · rw [if_neg (fun hc => hr hc.1), add_zero,
        freeRow s len hd (mem_freeDofs.mpr
          ⟨Finset.mem_range.mp hi, Bool.eq_false_iff.mpr hr⟩)]
  rw [Finset.sum_congr rfl hrow]
  calc ∑ i ∈ Finset.range s.numDofs,
        g i * ∑ j ∈ Finset.range s.numDofs, s.K len i j * s.uSol len j
      = ∑ j ∈ Finset.range s.numDofs,
          (∑ i ∈ Finset.range s.numDofs, g i * s.K len i j) *
            s.uSol len j := by
        simp only [Finset.mul_sum]
        rw [Finset.sum_comm]
        refine Finset.sum_congr rfl fun j _ => ?_
        rw [Finset.sum_mul]
        exact Finset.sum_congr rfl fun i _ => by ring
    _ = 0 := by
        refine Finset.sum_eq_zero fun j _ => ?_
        rw [K_left_null s len g hb hnull j, zero_mul]

/-- C2: for every valid (solvable) structure — element endpoints in
range and element lengths consistent with the node geometry — a
successful solve yields reactions that satisfy global equilibrium: the
applied nodal loads plus the reactions sum to zero in x and in y, and
their moments about every point (px, py) sum to zero. -/
theorem solve_reactions_equilibrium (s : SystemState) (len : ℕ → ℚ)
    (sol : Solution) (hb : s.boundedElems)
    (hlen : ∀ e ∈ s.elements, 0 < len e.id ∧
      len e.id ^ 2 =
        ((s.posOfId e.endNode).x - (s.posOfId e.startNode).x) ^ 2 +
          ((s.posOfId e.endNode).y - (s.posOfId e.startNode).y) ^ 2)
    (h : s.solve len = .ok sol) :
    (∑ i ∈ Finset.range s.numDofs, rigidX i * (s.P len i + sol.R i)) = 0 ∧
    (∑ i ∈ Finset.range s.numDofs, rigidY i * (s.P len i + sol.R i)) = 0 ∧
    ∀ px py : ℚ,
      (∑ i ∈ Finset.range s.numDofs,
        s.rigidM px py i * (s.P len i + sol.R i)) = 0 := by
  refine ⟨?_, ?_, fun px py => ?_⟩
  · apply solve_global_balance h rigidX hb
    intro e he
    rw [show (fun p => rigidX (elemDof e p)) = ![(1 : ℚ), 0, 0, 1, 0, 0] from
      funext (rigidX_gather e)]
    exact elemK_null_X s len e
  · apply solve_global_balance h rigidY hb
    intro e he
    rw [show (fun p => rigidY (elemDof e p)) = ![(0 : ℚ), 1, 0, 0, 1, 0] from
      funext (rigidY_gather e)]
    exact elemK_null_Y s len e
  · apply solve_global_balance h (s.rigidM px py) hb
    intro e he
    obtain ⟨h1, h2, h3, h4⟩ := hb e he
    rw [show (fun p => s.rigidM px py (elemDof e p)) =
        ![-((s.posOfId e.startNode).y - py), (s.posOfId e.startNode).x - px,
          1, -((s.posOfId e.endNode).y - py), (s.posOfId e.endNode).x - px,
          1] from funext (rigidM_gather s px py h1 h3)]
    exact elemK_null_M s len e (hlen e he).1 (hlen e he).2 px py

theorem solve_reactions_equilibrium_witness :
    proppedState.boundedElems ∧
    (∀ e ∈ proppedState.elements, 0 < lenOne e.id ∧
      lenOne e.id ^ 2 =
        ((proppedState.posOfId e.endNode).x -
            (proppedState.posOfId e.startNode).x) ^ 2 +
          ((proppedState.posOfId e.endNode).y -
            (proppedState.posOfId e.startNode).y) ^ 2) ∧
    ∃ sol, proppedState.solve lenOne = Except.ok sol ∧
      ((∑ i ∈ Finset.range proppedState.numDofs,
          rigidX i * (proppedState.P lenOne i + sol.R i)) = 0 ∧
       (∑ i ∈ Finset.range proppedState.numDofs,
          rigidY i * (proppedState.P lenOne i + sol.R i)) = 0 ∧
       ∀ px py : ℚ,
         (∑ i ∈ Finset.range proppedState.numDofs,
           proppedState.rigidM px py i *
             (proppedState.P lenOne i + sol.R i)) = 0) := by
  have hb : proppedState.boundedElems := by decide
  have hdet : (proppedState.KffMat lenOne).det ≠ 0 := by
    rw [propped_Kff_det]
    norm_num
  have hp1 : proppedState.posOfId 1 = ⟨0, 0⟩ := rfl
  have hp2 : proppedState.posOfId 2 = ⟨0, 1⟩ := rfl
  have hlen : ∀ e ∈ proppedState.elements, 0 < lenOne e.id ∧
      lenOne e.id ^ 2 =
        ((proppedState.posOfId e.endNode).x -
            (proppedState.posOfId e.startNode).x) ^ 2 +
          ((proppedState.posOfId e.endNode).y -
            (proppedState.posOfId e.startNode).y) ^ 2 := by
    intro e he
    have he' : e = ⟨1, 1, 2, 1, 1⟩ := by
      simpa [proppedState] using he
    subst he'
    refine ⟨by norm_num [lenOne], ?_⟩
    show (lenOne 1) ^ 2 =
      ((proppedState.posOfId 2).x - (proppedState.posOfId 1).x) ^ 2 +
        ((proppedState.posOfId 2).y - (proppedState.posOfId 1).y) ^ 2
    rw [hp1, hp2]
    norm_num [lenOne]
  obtain ⟨sol, hsol⟩ : ∃ sol, proppedState.solve lenOne = Except.ok sol := by
    rw [SystemState.solve, if_neg hdet]
    exact ⟨_, rfl⟩
  exact ⟨hb, hlen, sol, hsol,
    solve_reactions_equilibrium proppedState lenOne sol hb hlen hsol⟩

end StructApp
